import Mathlib

/-!
# Verification of the `mmdtools` core against its specification

Shallow embedding of the parts of the `mmdtools` repository that the frozen
claims C1..C10 are about:

* the cubic-Bézier easing solver and the bone-motion key-frame update
  (`mmdtools/viewer/common/key_frame.py`);
* the runtime bone graph: parent admission, the final apply pass, and the
  CCD IK solver loop structure (`mmdtools/viewer/common/bone.py`,
  `mmdtools/viewer/common/model.py`);
* the PMX model binary decoder (`mmdtools/io/pmx.py`, `mmdtools/io/utils.py`)
  and the PMX→MMD weight conversion (`mmdtools/core/mmd/convert.py`);
* the VMD motion binary decoder (`mmdtools/io/vmd.py`).

Modelling conventions:

* Python `float` (IEEE-754 double) arithmetic is modelled exactly over `ℚ`.
  Literals such as `1e-5` are written as the rationals they denote.
* The IEEE-754 *bit-level decoding* of 4-byte floats read from a binary
  stream is not reproduced; decoders are parametrised by a `FloatCodec`
  mapping the four raw bytes to the rational value they denote, and the
  theorems are universally quantified over the codec.
* Byte streams are `List ℕ` (each entry a byte value).  `struct.unpack` on a
  short buffer raises `struct.error` with message
  `unpack requires a buffer of ...`; this is the `RErr.bufferTooSmall` error.
  A `struct.error` with another message (e.g. a bad format string built from
  a negative length) is `RErr.structFormat`.
-/

namespace Mmdtools

/-! ## Cubic Bézier easing (`key_frame.solve_bezier`) -/

/-- `np.abs` on a rational, written as the branch it computes. -/
def ratAbs (q : ℚ) : ℚ := if q < 0 then -q else q

lemma ratAbs_eq_abs (q : ℚ) : ratAbs q = |q| := by
  unfold ratAbs
  rcases lt_or_ge q 0 with h | h
  · rw [if_pos h, abs_of_neg h]
  · rw [if_neg (not_lt.mpr h), abs_of_nonneg h]

/-- The cubic `3 s² t p₀ + 3 s t² p₁ + t³` with `s = 1 - t`, as evaluated by
`solve_bezier` for both the X and the Y coordinate of the curve (implicit
end points `(0,0)` and `(1,1)`). -/
def cubicAt (p0 p1 t : ℚ) : ℚ :=
  3 * (1 - t) ^ 2 * t * p0 + 3 * (1 - t) * t ^ 2 * p1 + t ^ 3

/-- The bisection loop of `solve_bezier`: starting from `t`, at iteration `i`
compute `ft = cubicX(t) - linear_rate`; stop early when `|ft| < 1e-5`,
otherwise move `t` by `± 1/(4 · 2^i)` (`sign = -1 if ft > 0 else 1`).
`fuel` counts the remaining iterations (15 at the top level). -/
def solveBezierLoop (x0 x1 linearRate : ℚ) : ℕ → ℕ → ℚ → ℚ
  | _, 0, t => t
  | i, fuel + 1, t =>
    let ft := cubicAt x0 x1 t - linearRate
    if ratAbs ft < 1 / 100000 then t
    else
      let sign : ℚ := if 0 < ft then -1 else 1
      solveBezierLoop x0 x1 linearRate (i + 1) fuel (t + sign * (1 / (4 * 2 ^ i)))

/-- `solve_bezier(x, y, linear_rate)` from `key_frame.py`: run the bisection
for 15 iterations starting at `t = 0.5`, then evaluate the cubic Y at the
found parameter. -/
def solveBezier (x0 x1 y0 y1 linearRate : ℚ) : ℚ :=
  cubicAt y0 y1 (solveBezierLoop x0 x1 linearRate 0 15 (1 / 2))

/-- Bound maintained by the bisection: the parameter stays in
`[1/(2·2^i), 1 - 1/(2·2^i)]` when entering iteration `i`. -/
def bezBound (i : ℕ) : ℚ := 1 / (2 * 2 ^ i)

lemma bezBound_pos (i : ℕ) : 0 < bezBound i := by
  unfold bezBound
  positivity

lemma bezBound_antitone {i j : ℕ} (h : i ≤ j) : bezBound j ≤ bezBound i := by
  unfold bezBound
  have h2 : (2 : ℚ) ^ i ≤ 2 ^ j := by
    exact pow_le_pow_right₀ (by norm_num) h
  have hi : (0 : ℚ) < 2 * 2 ^ i := by positivity
  have hj : (0 : ℚ) < 2 * 2 ^ j := by positivity
  rw [div_le_div_iff₀ hj hi]
  nlinarith

lemma bezBound_succ (i : ℕ) : bezBound (i + 1) = bezBound i / 2 := by
  unfold bezBound
  rw [pow_succ]
  ring

/-- The bisection parameter never leaves `[bezBound (i+fuel), 1 - bezBound (i+fuel)]`
when it starts inside `[bezBound i, 1 - bezBound i]`. -/
lemma solveBezierLoop_bounds (x0 x1 lr : ℚ) :
    ∀ (fuel i : ℕ) (t : ℚ), bezBound i ≤ t → t ≤ 1 - bezBound i →
      bezBound (i + fuel) ≤ solveBezierLoop x0 x1 lr i fuel t ∧
        solveBezierLoop x0 x1 lr i fuel t ≤ 1 - bezBound (i + fuel) := by
  intro fuel
  induction fuel with
  | zero =>
    intro i t h1 h2
    simpa [solveBezierLoop] using ⟨h1, h2⟩
  | succ fuel ih =>
    intro i t h1 h2
    rw [solveBezierLoop]
    by_cases hft : ratAbs (cubicAt x0 x1 t - lr) < 1 / 100000
    · simp only [hft, if_true]
      have hb : bezBound (i + (fuel + 1)) ≤ bezBound i :=
        bezBound_antitone (Nat.le_add_right _ _)
      exact ⟨le_trans hb h1, le_trans h2 (by linarith)⟩
    · simp only [hft, if_false]
      have hstep : (1 : ℚ) / (4 * 2 ^ i) = bezBound (i + 1) := by
        unfold bezBound
        rw [pow_succ]
        ring
      have hhalf := bezBound_succ i
      have hkey : bezBound (i + 1) ≤ t + (if (0:ℚ) < cubicAt x0 x1 t - lr then (-1:ℚ) else 1) * (1 / (4 * 2 ^ i)) ∧
          t + (if (0:ℚ) < cubicAt x0 x1 t - lr then (-1:ℚ) else 1) * (1 / (4 * 2 ^ i)) ≤ 1 - bezBound (i + 1) := by
        by_cases hsgn : (0:ℚ) < cubicAt x0 x1 t - lr
        · simp only [hsgn, if_true]
          constructor
          · rw [hstep]; linarith [bezBound_pos (i+1)]
          · rw [hstep]; linarith [bezBound_pos (i+1)]
        · simp only [hsgn, if_false]
          constructor
          · rw [hstep]; linarith [bezBound_pos (i+1)]
          · rw [hstep]; linarith [bezBound_pos (i+1)]
      have := ih (i + 1) _ hkey.1 hkey.2
      have harith : i + 1 + fuel = i + (fuel + 1) := by omega
      rw [harith] at this
      exact this

/-- The parameter returned by the 15-iteration bisection lies strictly inside
`(0, 1)`. -/
lemma solveBezierLoop_mem (x0 x1 lr : ℚ) :
    0 < solveBezierLoop x0 x1 lr 0 15 (1 / 2) ∧
      solveBezierLoop x0 x1 lr 0 15 (1 / 2) < 1 := by
  have h := solveBezierLoop_bounds x0 x1 lr 15 0 (1 / 2)
    (by unfold bezBound; norm_num) (by unfold bezBound; norm_num)
  have hb := bezBound_pos 15
  constructor
  · linarith [h.1]
  · linarith [h.2]

/-- C4 counterexample: with control points `P1 = (0, 1)`, `P2 = (0, 1)` (both
in the unit square) and `linear_rate = 0.0` the function does **not** return
exactly `0.0` (the bisection stops at `t = 1/64`, giving a positive result). -/
theorem solveBezier_not_exact_at_zero :
    ¬ solveBezier 0 0 1 1 0 = 0 := by
  norm_num [solveBezier, solveBezierLoop, cubicAt, ratAbs]

/-- C4 (amended): for any control points whose Y coordinates lie in the unit
interval, `solve_bezier` returns a value strictly between 0 and 1 for *every*
requested linear rate; in particular it never returns exactly `0.0` at
`linear_rate = 0.0` nor exactly `1.0` at `linear_rate = 1.0` — the end
points are only approximated, because the bisection parameter stays within
`[2⁻¹⁶, 1 - 2⁻¹⁶]`. -/
theorem solveBezier_strictly_between (x0 x1 y0 y1 lr : ℚ)
    (hy0 : 0 ≤ y0) (hy0' : y0 ≤ 1) (hy1 : 0 ≤ y1) (hy1' : y1 ≤ 1) :
    0 < solveBezier x0 x1 y0 y1 lr ∧ solveBezier x0 x1 y0 y1 lr < 1 := by
  unfold solveBezier
  obtain ⟨ht0, ht1⟩ := solveBezierLoop_mem x0 x1 lr
  set t := solveBezierLoop x0 x1 lr 0 15 (1 / 2) with hT
  unfold cubicAt
  have hs : (0 : ℚ) < 1 - t := by linarith
  constructor
  · nlinarith [mul_pos (mul_pos ht0 ht0) ht0,
      mul_nonneg (mul_nonneg (sq_nonneg (1 - t)) ht0.le) hy0,
      mul_nonneg (mul_nonneg hs.le (mul_nonneg ht0.le ht0.le)) hy1]
  · nlinarith [mul_pos (mul_pos hs hs) hs,
      mul_nonneg (mul_nonneg (sq_nonneg (1 - t)) ht0.le)
        (by linarith : (0 : ℚ) ≤ 1 - y0),
      mul_nonneg (mul_nonneg hs.le (mul_nonneg ht0.le ht0.le))
        (by linarith : (0 : ℚ) ≤ 1 - y1)]

/-- Witness for `solveBezier_strictly_between` at `x = (0,0)`, `y = (1,1)`,
`linear_rate = 0`. -/
theorem solveBezier_strictly_between_witness :
    0 < solveBezier 0 0 1 1 0 ∧ solveBezier 0 0 1 1 0 < 1 :=
  solveBezier_strictly_between 0 0 1 1 0 (by norm_num) (by norm_num)
    (by norm_num) (by norm_num)

/-! ## Bone-graph parent admission (`Bone.set_parent_bone`, `Model._create_motion_bones`) -/

/-- Parent resolution for the runtime bone at index `i`, as performed by
`Model._create_motion_bones` followed by `Bone.set_parent_bone`:

* `parent = None if bone_data.parent_index < 0 else motion_bones[parent_index]`;
* `set_parent_bone` keeps `self.parent = None` when `parent is None` or when
  `self.id < parent.id`, and otherwise stores the reference.

`parentIdx` is the list of decoded `parent_index` fields (one per bone). -/
def resolvedParent (parentIdx : List ℤ) (i : ℕ) : Option ℕ :=
  match parentIdx.get? i with
  | none => none
  | some p =>
    if p < 0 then none
    else if (i : ℤ) < p then none
    else some p.toNat

/-- Following resolved parent links for `k` steps (`none` = reached a root). -/
def followParent (parentIdx : List ℤ) : ℕ → Option ℕ → Option ℕ
  | 0, x => x
  | k + 1, x =>
    match x with
    | none => none
    | some i => followParent parentIdx k (resolvedParent parentIdx i)

/-- C2 counterexample: a single bone whose decoded `parent_index` is its own
index 0.  After parent resolution it holds a *non-None* parent reference even
though the parent's index is not strictly smaller than its own — the
admission test `if self.id < parent.id: return` admits equality, so a
self-parent is accepted (and following parent links from it never reaches a
root). -/
theorem resolvedParent_admits_self :
    resolvedParent [0] 0 = some 0 ∧ ¬ (0 < 0) ∧
      followParent [0] 1 (some 0) = some 0 := by
  constructor
  · rfl
  · exact ⟨by omega, rfl⟩

lemma resolvedParent_le (parentIdx : List ℤ) (i j : ℕ)
    (h : resolvedParent parentIdx i = some j) : j ≤ i := by
  unfold resolvedParent at h
  split at h
  · simp at h
  · split at h
    · simp at h
    · split at h
      · simp at h
      · simp only [Option.some.injEq] at h
        omega

lemma followParent_root (parentIdx : List ℤ)
    (hns : ∀ i, resolvedParent parentIdx i ≠ some i) :
    ∀ (k i : ℕ), i < k → followParent parentIdx k (some i) = none := by
  intro k
  induction k with
  | zero => omega
  | succ k ih =>
    intro i hik
    rw [followParent]
    rcases hp : resolvedParent parentIdx i with _ | j
    · rcases k with _ | k
      · rfl
      · rw [followParent]
    · have hle : j ≤ i := resolvedParent_le parentIdx i j hp
      have hne : j ≠ i := by
        intro hji
        exact hns i (hji ▸ hp)
      exact ih j (by omega)

/-- C2 (amended): after the parent-resolution pass a bone holds a non-None
parent reference only if the parent's index is *less than or equal to* its
own (the admission test `if self.id < parent.id: return` rejects only
strictly larger parents, so a self-parent is admitted); consequently, for
every bone whose graph contains no self-parent, following parent links
terminates at a root in at most bone-count steps. -/
theorem resolvedParent_le_and_terminates (parentIdx : List ℤ)
    (hns : ∀ i, resolvedParent parentIdx i ≠ some i) :
    (∀ i j, resolvedParent parentIdx i = some j → j ≤ i) ∧
      (∀ i, i < parentIdx.length →
        followParent parentIdx parentIdx.length (some i) = none) :=
  ⟨fun i j h => resolvedParent_le parentIdx i j h,
   fun i hi => followParent_root parentIdx hns parentIdx.length i hi⟩

/-- Witness for `resolvedParent_le_and_terminates` on the two-bone graph with
parent indices `[-1, 0]`. -/
theorem resolvedParent_le_and_terminates_witness :
    (∀ i, resolvedParent [-1, 0] i ≠ some i) ∧
      followParent [-1, 0] 2 (some 1) = none := by
  have hns : ∀ i, resolvedParent [-1, 0] i ≠ some i := by
    intro i
    match i with
    | 0 => simp [resolvedParent]
    | 1 => simp [resolvedParent]
    | n + 2 => simp [resolvedParent]
  exact ⟨hns,
    (resolvedParent_le_and_terminates [-1, 0] hns).2 1 (by norm_num)⟩

/-! ## CCD IK solver loop structure (`Bone.ik_move`)

The per-iteration numeric computation of `ik_move` (global-matrix inverse,
normalisation, clamped dot product, `arccos`, cross product) involves
transcendental floating-point geometry; it is abstracted into an `IKGeom`
oracle computing, from the current mutable bone state, the rotation angle
`rot`, the L1 norm `np.sum(np.abs(axis))` of the cross product, and the
state mutation performed by `rotatable_control`.  The loop structure, the
iteration cap `min(loop_size, loop_range)`, the tolerance `bias = 1e-2` and
the double-`break` early exit are translated exactly; the theorems hold for
*every* oracle. -/

/-- Oracle for the geometry of one `ik_move` inner iteration on state `σ`:
`rot s l` is `arccos(clip(dot, -1, 1))` for chain link `l` at state `s`,
`axisNormL1 s l` is `np.sum(np.abs(cross))`, and `rotate s l` is the state
after `chain_bone.rotatable_control(chain_bone, axis, rot)`. -/
structure IKGeom (σ : Type) where
  rot : σ → ℕ → ℚ
  axisNormL1 : σ → ℕ → ℚ
  rotate : σ → ℕ → σ

/-- The inner `for _ in range(loop_size)` of `ik_move` for one chain link:
returns the final state, the number of iterations of the loop body that ran,
and the `exit_flag` (true when either tolerance check fired). -/
def ikInnerLoop {σ : Type} (g : IKGeom σ) (link : ℕ) : ℕ → σ → σ × ℕ × Bool
  | 0, s => (s, 0, false)
  | fuel + 1, s =>
    if ratAbs (g.rot s link) < 1 / 100 then (s, 1, true)
    else if g.axisNormL1 s link < 1 / 100 then (s, 1, true)
    else
      let r := ikInnerLoop g link fuel (g.rotate s link)
      (r.1, r.2.1 + 1, r.2.2)

/-- The outer `for chain_bone in chain` of `ik_move`: processes links in
order, breaking out of the whole loop as soon as a link's `exit_flag` is set.
Returns the final state and, for specification purposes, the list of
`(link, iterations, exit_flag)` triples of the links that were processed. -/
def ikMoveGo {σ : Type} (g : IKGeom σ) (n : ℕ) :
    List ℕ → σ → σ × List (ℕ × ℕ × Bool)
  | [], s => (s, [])
  | link :: rest, s =>
    let r := ikInnerLoop g link n s
    if r.2.2 then (r.1, [(link, r.2.1, r.2.2)])
    else
      let rr := ikMoveGo g n rest r.1
      (rr.1, (link, r.2.1, r.2.2) :: rr.2)

/-- `Bone.ik_move(target, chain, loop_size, loop_range=256)`: the iteration
cap is `loop_size = min(loop_size, loop_range)`. -/
def ikMove {σ : Type} (g : IKGeom σ) (chain : List ℕ)
    (loopSize loopRange : ℕ) (s : σ) : σ × List (ℕ × ℕ × Bool) :=
  ikMoveGo g (min loopSize loopRange) chain s

lemma ikInnerLoop_count_le {σ : Type} (g : IKGeom σ) (link : ℕ) :
    ∀ (fuel : ℕ) (s : σ), (ikInnerLoop g link fuel s).2.1 ≤ fuel := by
  intro fuel
  induction fuel with
  | zero =>
    intro s
    simp [ikInnerLoop]
  | succ fuel ih =>
    intro s
    rw [ikInnerLoop]
    split
    · simp
    · split
      · simp
      · simpa using Nat.succ_le_succ (ih (g.rotate s link))

lemma ikMoveGo_spec {σ : Type} (g : IKGeom σ) (n : ℕ) :
    ∀ (chain : List ℕ) (s : σ),
      ((ikMoveGo g n chain s).2.map Prod.fst =
          chain.take (ikMoveGo g n chain s).2.length) ∧
      (∀ e ∈ (ikMoveGo g n chain s).2, e.2.1 ≤ n) ∧
      (∀ pre e post, (ikMoveGo g n chain s).2 = pre ++ e :: post →
        e.2.2 = true → post = []) := by
  intro chain
  induction chain with
  | nil =>
    intro s
    refine ⟨by simp [ikMoveGo], by simp [ikMoveGo], ?_⟩
    intro pre e post heq _
    rw [ikMoveGo] at heq
    exact absurd heq.symm (by simp)
  | cons link rest ih =>
    intro s
    by_cases hex : (ikInnerLoop g link n s).2.2 = true
    · refine ⟨?_, ?_, ?_⟩
      · simp [ikMoveGo, hex]
      · intro e he
        simp only [ikMoveGo, hex, if_true, List.mem_singleton] at he
        subst he
        exact ikInnerLoop_count_le g link n s
      · intro pre e post heq _
        simp only [ikMoveGo, hex, if_true] at heq
        have hlen : pre.length + (post.length + 1) = 1 := by
          have := congrArg List.length heq
          simpa [Nat.add_comm, Nat.add_left_comm] using this.symm
        have : post.length = 0 := by omega
        exact List.length_eq_zero.mp this
    · have hexF : (ikInnerLoop g link n s).2.2 = false :=
        Bool.not_eq_true _ ▸ Bool.of_not_eq_true hex
      obtain ⟨ih1, ih2, ih3⟩ := ih (ikInnerLoop g link n s).1
      refine ⟨?_, ?_, ?_⟩
      · simp only [ikMoveGo, hexF, Bool.false_eq_true, if_false, List.map_cons,
          List.length_cons, List.take_succ_cons, ih1]
      · intro e he
        simp only [ikMoveGo, hexF, Bool.false_eq_true, if_false,
          List.mem_cons] at he
        rcases he with he | he
        · subst he
          exact ikInnerLoop_count_le g link n s
        · exact ih2 e he
      · intro pre e post heq hflag
        simp only [ikMoveGo, hexF, Bool.false_eq_true, if_false] at heq
        cases pre with
        | nil =>
          simp only [List.nil_append, List.cons.injEq] at heq
          rw [← heq.1] at hflag
          simp at hflag
        | cons y pre₂ =>
          simp only [List.cons_append, List.cons.injEq] at heq
          exact ih3 pre₂ e post heq.2 hflag

/-- C8: for every oracle, chain, requested iteration count and start state,
`ik_move` with the default `loop_range = 256` (i) processes an initial
segment of the chain in order, (ii) runs each processed link's inner
rotation loop at most `min(loop_size, 256)` times, and (iii) stops the whole
solve as soon as either tolerance check (`abs(rot) < 1e-2` or
`sum(abs(axis)) < 1e-2`) fires on any link: a link whose `exit_flag` is set
is the last link processed (no later link of the chain is reached). -/
theorem ikMove_cap_and_early_exit {σ : Type} (g : IKGeom σ)
    (chain : List ℕ) (loopSize : ℕ) (s : σ) :
    ((ikMove g chain loopSize 256 s).2.map Prod.fst =
        chain.take (ikMove g chain loopSize 256 s).2.length) ∧
    (∀ e ∈ (ikMove g chain loopSize 256 s).2, e.2.1 ≤ min loopSize 256) ∧
    (∀ pre e post, (ikMove g chain loopSize 256 s).2 = pre ++ e :: post →
      e.2.2 = true → post = []) :=
  ikMoveGo_spec g (min loopSize 256) chain s

/-- Witness for `ikMove_cap_and_early_exit`: on a two-link chain with an
oracle that converges immediately (zero rotation angle) the trace is the
single entry `(7, 1, true)` — one inner iteration on the first link, second
link never processed. -/
theorem ikMove_cap_and_early_exit_witness :
    (ikMove ⟨fun _ _ => 0, fun _ _ => 1, fun s _ => s⟩ [7, 8] 2 256 0).2 =
        [(7, 1, true)] ∧ (1 : ℕ) ≤ min 2 256 ∧ ([] : List (ℕ × ℕ × Bool)) = [] := by
  have htr : (ikMove (⟨fun _ _ => 0, fun _ _ => 1, fun s _ => s⟩ : IKGeom ℕ)
      [7, 8] 2 256 0).2 = [(7, 1, true)] := by
    norm_num [ikMove, ikMoveGo, ikInnerLoop, ratAbs]
  obtain ⟨-, hcnt, hpost⟩ := ikMove_cap_and_early_exit
    (⟨fun _ _ => 0, fun _ _ => 1, fun s _ => s⟩ : IKGeom ℕ) [7, 8] 2 0
  refine ⟨htr, ?_, ?_⟩
  · simpa using hcnt (7, 1, true) (by rw [htr]; simp)
  · exact hpost [] (7, 1, true) [] (by rw [htr]; simp) rfl

/-! ## Bone graph final apply pass (`Model.update_bones`, `Bone.apply`)

4×4 matrices over ℚ model the `numpy`/`pyrr` matrices; `matrix44.multiply`
and `np.matmul` are the matrix product, written in the argument order of the
source.  Bones live in a flat state indexed by `ℕ` (index = position in
`Model.motion_bones`).  The recursive calls `parent.apply()` and
`parent.get_global_matrix(...)` are given explicit fuel (the Python versions
recurse without bound and diverge on a self-parent); the theorems hypothesise
strictly decreasing parent indices, under which the per-step update
terminates and the fuel is never exhausted. -/

abbrev Mat4 := Matrix (Fin 4) (Fin 4) ℚ

/-- Mutable per-bone state of the runtime bone graph (`Bone` attributes). -/
structure BoneState where
  parent : ℕ → Option ℕ
  offset : ℕ → Mat4
  part : ℕ → Mat4
  delta : ℕ → Mat4
  globalM : ℕ → Mat4
  localM : ℕ → Mat4
  updated : ℕ → Bool

/-- `Bone.get_global_matrix(check_updated)`: return the stored global matrix
when `check_updated` and the bone is already updated; otherwise compose
`delta × (part × parent.global)` (or `delta × global` for a root). -/
def getGlobalMatrix (st : BoneState) (check : Bool) : ℕ → ℕ → Mat4
  | 0, i => st.globalM i
  | fuel + 1, i =>
    if check && st.updated i then st.globalM i
    else
      let g :=
        match st.parent i with
        | some p => st.part i * getGlobalMatrix st check fuel p
        | none => st.globalM i
      st.delta i * g

/-- `Bone.apply()`: recurse into a not-yet-updated parent, then set
`global = get_global_matrix(check_updated=True)`,
`local = offset × global`, `is_updated = True`. -/
def applyBone (n : ℕ) : ℕ → BoneState → ℕ → BoneState
  | 0, st, _ => st
  | fuel + 1, st, i =>
    let st₁ :=
      match st.parent i with
      | some p => if st.updated p then st else applyBone n fuel st p
      | none => st
    let g := getGlobalMatrix st₁ true (n + 1) i
    { st₁ with
      globalM := Function.update st₁.globalM i g
      localM := Function.update st₁.localM i (st₁.offset i * g)
      updated := Function.update st₁.updated i true }

/-- `Bone.reset_delta()`: `delta_matrix = np.identity(4)`. -/
def resetDelta (st : BoneState) (i : ℕ) : BoneState :=
  { st with delta := Function.update st.delta i 1 }

/-- The tail of `Model.update_bones`: clear all `is_updated` flags, then for
every bone in index order `bone.apply(); bone.reset_delta()`.  The preceding
level loop (IK solving and grant following) only edits delta and global
matrices, so it is absorbed into the arbitrary incoming state `st`. -/
def updateBonesFinal (n : ℕ) (st : BoneState) : BoneState :=
  let st₀ : BoneState := { st with updated := fun _ => false }
  (List.range n).foldl (fun s i => resetDelta (applyBone n (n + 1) s i) i) st₀

/-- Invariant carried through the apply pass after processing bones `< k`. -/
def passInv (st : BoneState) (k : ℕ) (s : BoneState) : Prop :=
  s.parent = st.parent ∧ s.offset = st.offset ∧
    (∀ i, k ≤ i → s.updated i = false) ∧
    (∀ i, i < k → s.updated i = true ∧ s.delta i = 1 ∧
      s.localM i = s.offset i * s.globalM i)

lemma passInv_step (st : BoneState) (hpar : ∀ i p, st.parent i = some p → p < i)
    (n k : ℕ) (hk : k < n) (s : BoneState) (hinv : passInv st k s) :
    passInv st (k + 1) (resetDelta (applyBone n (n + 1) s k) k) := by
  obtain ⟨hp, ho, hup, hlo⟩ := hinv
  have hupk : s.updated k = false := hup k le_rfl
  -- the parent recursion branch of `apply` is not taken: a parent has a
  -- strictly smaller index, hence is already updated
  have hst₁ : (match s.parent k with
      | some p => if s.updated p then s else applyBone n n s p
      | none => s) = s := by
    rcases hpk : s.parent k with _ | p
    · rfl
    · have hplt : p < k := hpar k p (hp ▸ hpk)
      have : s.updated p = true := (hlo p hplt).1
      simp [this]
  have hglob : getGlobalMatrix s true (n + 1) k =
      s.delta k * (match s.parent k with
        | some p => s.part k * s.globalM p
        | none => s.globalM k) := by
    simp only [getGlobalMatrix, hupk, Bool.and_false, Bool.false_eq_true,
      if_false]
    rcases hpk : s.parent k with _ | p
    · simp
    · have hplt : p < k := hpar k p (hp ▸ hpk)
      have hpu : s.updated p = true := (hlo p hplt).1
      obtain ⟨m, rfl⟩ : ∃ m, n = m + 1 := ⟨n - 1, by omega⟩
      simp only [getGlobalMatrix, hpu, Bool.and_true, Bool.and_self, if_true]
  rw [applyBone]
  simp only [hst₁]
  set g := getGlobalMatrix s true (n + 1) k with hg
  refine ⟨by simp [resetDelta, hp], by simp [resetDelta, ho], ?_, ?_⟩
  · intro i hi
    simp only [resetDelta]
    have hik : i ≠ k := by omega
    simp only [Function.update, dif_neg hik]
    exact hup i (by omega)
  · intro i hi
    rcases Nat.lt_or_ge i k with hik | hik
    · have hik' : i ≠ k := by omega
      obtain ⟨h1, h2, h3⟩ := hlo i hik
      simp only [resetDelta, Function.update, dif_neg hik']
      exact ⟨h1, h2, h3⟩
    · have hik' : i = k := by omega
      subst hik'
      simp only [resetDelta, Function.update, dif_pos rfl]
      exact ⟨rfl, rfl, rfl⟩

lemma passInv_all (st : BoneState)
    (hpar : ∀ i p, st.parent i = some p → p < i) (n : ℕ) :
    ∀ k, k ≤ n → passInv st k
      ((List.range k).foldl (fun s i => resetDelta (applyBone n (n + 1) s i) i)
        { st with updated := fun _ => false }) := by
  intro k
  induction k with
  | zero =>
    intro _
    refine ⟨rfl, rfl, fun i _ => rfl, fun i hi => absurd hi (by omega)⟩
  | succ k ih =>
    intro hk
    rw [List.range_succ, List.foldl_append, List.foldl_cons, List.foldl_nil]
    exact passInv_step st hpar n k (by omega) _ (ih (by omega))

/-- C9: provided every resolved parent has a strictly smaller index (so the
recursive `apply` terminates), after the final apply pass of
`Model.update_bones` every bone's delta matrix is the identity and every
bone's local (skinning) matrix equals its offset (inverse-bind) matrix
multiplied by its freshly recomputed global matrix. -/
theorem updateBones_delta_identity_and_local (st : BoneState) (n : ℕ)
    (hpar : ∀ i p, st.parent i = some p → p < i) :
    ∀ i, i < n → (updateBonesFinal n st).delta i = 1 ∧
      (updateBonesFinal n st).localM i =
        (updateBonesFinal n st).offset i * (updateBonesFinal n st).globalM i := by
  intro i hi
  have h := passInv_all st hpar n n le_rfl
  obtain ⟨-, -, -, hlo⟩ := h
  obtain ⟨-, h2, h3⟩ := hlo i hi
  exact ⟨h2, by simpa [updateBonesFinal] using h3⟩

/-- Witness for `updateBones_delta_identity_and_local`: a two-bone chain
(bone 1's parent is bone 0) with identity matrices everywhere. -/
theorem updateBones_delta_identity_and_local_witness :
    (updateBonesFinal 2 ⟨fun i => if i = 1 then some 0 else none,
        fun _ => 1, fun _ => 1, fun _ => 1, fun _ => 1, fun _ => 1,
        fun _ => false⟩).delta 1 = 1 ∧
      (updateBonesFinal 2 ⟨fun i => if i = 1 then some 0 else none,
          fun _ => 1, fun _ => 1, fun _ => 1, fun _ => 1, fun _ => 1,
          fun _ => false⟩).localM 1 =
        (updateBonesFinal 2 ⟨fun i => if i = 1 then some 0 else none,
            fun _ => 1, fun _ => 1, fun _ => 1, fun _ => 1, fun _ => 1,
            fun _ => false⟩).offset 1 *
          (updateBonesFinal 2 ⟨fun i => if i = 1 then some 0 else none,
              fun _ => 1, fun _ => 1, fun _ => 1, fun _ => 1, fun _ => 1,
              fun _ => false⟩).globalM 1 :=
  updateBones_delta_identity_and_local _ 2
    (by
      intro i p hp
      simp only at hp
      by_cases h1 : i = 1
      · subst h1
        simp at hp
        omega
      · simp [h1] at hp)
    1 (by omega)

/-! ## Bone motion key frames (`key_frame.BoneMotionKeyFrame`)

A key frame holds the decoded frame number, translation, rotation quaternion
and the four Bézier channels built from the 64-byte interpolation block
(`np.array(interpolation)[:16].reshape(2, 8).T / 127.0`).  The
`pyrr.quaternion.slerp` used by `interp_rotation` is transcendental; the
update function is parametrised by it (`slerpFn`), and nothing below depends
on its value.  `Bone.translate`/`Bone.rotate` side effects are recorded as
the lists of translations/rotations applied to the bone. -/

/-- One Bézier channel of a bone key frame: the `x` pair and `y` pair of
control-point coordinates handed to `solve_bezier`. -/
structure BezChannel where
  x1 : ℚ
  x2 : ℚ
  y1 : ℚ
  y2 : ℚ

/-- `bezier_points[j] = (interpolation[j] / 127, interpolation[j + 8] / 127)`
after `[:16].reshape(2, 8).T`; channel `c ∈ {0,1,2,3}` (x, y, z, rotation)
uses pairs `j = c` (x coordinates) and `j = c + 4` (y coordinates). -/
def bezChannelOf (interp : List ℤ) (c : ℕ) : BezChannel :=
  ⟨((interp.getD c 0 : ℤ) : ℚ) / 127, ((interp.getD (c + 8) 0 : ℤ) : ℚ) / 127,
   ((interp.getD (c + 4) 0 : ℤ) : ℚ) / 127, ((interp.getD (c + 12) 0 : ℤ) : ℚ) / 127⟩

/-- `BoneMotionKeyFrame` state relevant to `update`. -/
structure BMKey where
  frameNumber : ℤ
  translation : ℚ × ℚ × ℚ
  rotation : ℚ × ℚ × ℚ × ℚ
  bezX : BezChannel
  bezY : BezChannel
  bezZ : BezChannel
  bezR : BezChannel

/-- `BoneMotionKeyFrame.__init__` from the decoded frame fields. -/
def mkBMKey (frameNumber : ℤ) (translation : ℚ × ℚ × ℚ)
    (rotation : ℚ × ℚ × ℚ × ℚ) (interp : List ℤ) : BMKey :=
  ⟨frameNumber, translation, rotation,
   bezChannelOf interp 0, bezChannelOf interp 1,
   bezChannelOf interp 2, bezChannelOf interp 3⟩

/-- `get_linear_rate`: 0 when the two frame numbers coincide, else
`(frame - cur.frame) / (next.frame - cur.frame)`. -/
def getLinearRate (cur nxt : BMKey) (frame : ℤ) : ℚ :=
  if nxt.frameNumber = cur.frameNumber then 0
  else ((frame - cur.frameNumber : ℤ) : ℚ) /
    ((nxt.frameNumber - cur.frameNumber : ℤ) : ℚ)

/-- `interp_translation`: three independent Bézier-eased blends, one per
axis: `next.translation * rate + self.translation * (1 - rate)`. -/
def interpTranslation (cur nxt : BMKey) (lr : ℚ) : ℚ × ℚ × ℚ :=
  let rx := solveBezier cur.bezX.x1 cur.bezX.x2 cur.bezX.y1 cur.bezX.y2 lr
  let ry := solveBezier cur.bezY.x1 cur.bezY.x2 cur.bezY.y1 cur.bezY.y2 lr
  let rz := solveBezier cur.bezZ.x1 cur.bezZ.x2 cur.bezZ.y1 cur.bezZ.y2 lr
  (nxt.translation.1 * rx + cur.translation.1 * (1 - rx),
   nxt.translation.2.1 * ry + cur.translation.2.1 * (1 - ry),
   nxt.translation.2.2 * rz + cur.translation.2.2 * (1 - rz))

/-- `interp_rotation`: spherical linear interpolation between the two
quaternions at the Bézier-eased rate of the rotation channel. -/
def interpRotation
    (slerpFn : ℚ × ℚ × ℚ × ℚ → ℚ × ℚ × ℚ × ℚ → ℚ → ℚ × ℚ × ℚ × ℚ)
    (cur nxt : BMKey) (lr : ℚ) : ℚ × ℚ × ℚ × ℚ :=
  slerpFn cur.rotation nxt.rotation
    (solveBezier cur.bezR.x1 cur.bezR.x2 cur.bezR.y1 cur.bezR.y2 lr)

/-- Whether `update` returns `self` (hold this key) or `self.next_frame`
(advance the track cursor). -/
inductive KeyStep where
  | stay
  | advance
deriving DecidableEq

/-- The side effects of one `BoneMotionKeyFrame.update` call: the
translations and rotations applied to the bone (via `bone.translate` /
`bone.rotate`), and which key the caller receives back. -/
structure UpdateEffect where
  translations : List (ℚ × ℚ × ℚ)
  rotations : List (ℚ × ℚ × ℚ × ℚ)
  step : KeyStep
deriving DecidableEq

/-- `BoneMotionKeyFrame.update(frame)`:

* no successor: apply the key's literal translation/rotation, stay;
* `linear_rate < 1`: return `self` without touching the bone (the comment
  above this guard in the source describes a first-key guard, i.e. a
  `linear_rate < 0` test);
* `linear_rate > 1`: return the successor without touching the bone;
* otherwise interpolate translation and rotation, then advance once the
  successor's frame number is ≤ the queried frame. -/
def bmkUpdate
    (slerpFn : ℚ × ℚ × ℚ × ℚ → ℚ × ℚ × ℚ × ℚ → ℚ → ℚ × ℚ × ℚ × ℚ)
    (cur : BMKey) (next : Option BMKey) (frame : ℤ) : UpdateEffect :=
  match next with
  | none => ⟨[cur.translation], [cur.rotation], .stay⟩
  | some nxt =>
    let lr := getLinearRate cur nxt frame
    if lr < 1 then ⟨[], [], .stay⟩
    else if 1 < lr then ⟨[], [], .advance⟩
    else
      let tr := interpTranslation cur nxt lr
      let rot := interpRotation slerpFn cur nxt lr
      ⟨[tr], [rot], if nxt.frameNumber ≤ frame then .advance else .stay⟩

/-- A stand-in for `pyrr.quaternion.slerp` for concrete instances on which
the rotation branch is never reached. -/
def slerpHold : ℚ × ℚ × ℚ × ℚ → ℚ × ℚ × ℚ × ℚ → ℚ → ℚ × ℚ × ℚ × ℚ :=
  fun q _ _ => q

/-- A diagonal 64-byte interpolation block (all entries 32), giving every
Bézier channel the control points `(32/127, 32/127)`, `(32/127, 32/127)`
on the diagonal. -/
def diagInterp : List ℤ := List.replicate 64 32

/-- The claim's key at frame 0: translation `(0,0,0)`, identity rotation. -/
def cexKey0 : BMKey := mkBMKey 0 (0, 0, 0) (0, 0, 0, 1) diagInterp

/-- The claim's key at frame 30: translation `(0,10,0)`, a 90° rotation
about Y (`(0, √2/2, 0, √2/2)`, here carried as its 4-decimal approximation —
the update never reads it). -/
def cexKey30 : BMKey :=
  mkBMKey 30 (0, 10, 0) (0, 7071 / 10000, 0, 7071 / 10000) diagInterp

/-- C1: evaluating `BoneMotionKeyFrame.update` at the claim's failing input —
keys at frames 0 and 30, diagonal Bézier control points, queried frame 15 —
the guard `if linear_rate < 1: return self` fires (the linear rate is 1/2),
so the bone receives **no** translation and **no** rotation, and the call
returns `self`; the Bézier-blend branch the claim (and the spec) describe is
unreachable for every mid-segment frame. -/
theorem bmkUpdate_frame15_applies_nothing :
    getLinearRate cexKey0 cexKey30 15 = 1 / 2 ∧
      bmkUpdate slerpHold cexKey0 (some cexKey30) 15 =
        ⟨[], [], KeyStep.stay⟩ := by
  have hlr : getLinearRate cexKey0 cexKey30 15 = 1 / 2 := by
    norm_num [getLinearRate, cexKey0, cexKey30, mkBMKey]
  refine ⟨hlr, ?_⟩
  rw [bmkUpdate]
  rw [hlr]
  norm_num

/-! ## Binary stream reading (`io/utils.py`)

A stream is the list of not-yet-consumed bytes.  `struct.unpack`-backed
reads fail with `bufferTooSmall` on a short buffer (Python:
`struct.error('unpack requires a buffer of …')`); a `struct.error` raised
for any other reason (e.g. the format string built from a negative string
length) is `structFormat`.  The remaining constructors are the `Exception`s
and the `KeyError` the decoders raise. -/

inductive RErr where
  | bufferTooSmall
  | structFormat
  | invalidFile
  | unsupportedVersion
  | invalidValue
  | keyError
  | trailingData
deriving DecidableEq

/-- Whether the error is a Python `struct.error` (what
`except struct.error` catches). -/
def RErr.isStruct : RErr → Bool
  | .bufferTooSmall => true
  | .structFormat => true
  | _ => false

abbrev Bytes := List ℕ

/-- A reader: consume a prefix of the stream, produce a value and the rest,
or fail. -/
abbrev Rd (α : Type) := Bytes → Except RErr (α × Bytes)

def rpure {α : Type} (a : α) : Rd α := fun s => .ok (a, s)

def rbind {α β : Type} (m : Rd α) (f : α → Rd β) : Rd β := fun s =>
  match m s with
  | .ok (a, s₂) => f a s₂
  | .error e => .error e

def rdThrow {α : Type} (e : RErr) : Rd α := fun _ => .error e

/-- `struct.unpack(fmt, fp.read(n))` for a format needing exactly `n`
bytes. -/
def readUnpack (n : ℕ) : Rd Bytes := fun s =>
  if n ≤ s.length then .ok (s.take n, s.drop n) else .error .bufferTooSmall

/-- `fs.read_bytes(n)` — a plain `fp.read(n)`: may return fewer bytes at end
of stream, never fails. -/
def readRaw (n : ℕ) : Rd Bytes := fun s => .ok (s.take n, s.drop n)

/-- `fs.read_rest()`. -/
def readRest : Rd Bytes := fun s => .ok (s, [])

/-- Little-endian value of a byte list. -/
def leNat : Bytes → ℕ
  | [] => 0
  | b :: rest => b + 256 * leNat rest

/-- Two's-complement reading of a `w`-byte little-endian value. -/
def toSigned (w : ℕ) (v : ℕ) : ℤ :=
  if v < 2 ^ (8 * w - 1) then (v : ℤ) else (v : ℤ) - 2 ^ (8 * w)

def readUIntN (n : ℕ) : Rd ℕ :=
  rbind (readUnpack n) fun bs => rpure (leNat bs)

def readIntN (n : ℕ) : Rd ℤ :=
  rbind (readUnpack n) fun bs => rpure (toSigned n (leNat bs))

def readInt : Rd ℤ := readIntN 4

def readULong : Rd ℕ := readUIntN 4

def readUShort : Rd ℕ := readUIntN 2

def readByte : Rd ℤ := readIntN 1

def readUByte : Rd ℕ := readUIntN 1

def readChars (n : ℕ) : Rd Bytes := readUnpack n

/-- IEEE-754 single decoding abstracted: maps the four raw bytes of a
little-endian `<f` field to the rational it denotes. -/
structure FloatCodec where
  dec : ℕ → ℕ → ℕ → ℕ → ℚ

/-- A codec assigning every float field the same value (used to build
concrete witness streams). -/
def constCodec (q : ℚ) : FloatCodec := ⟨fun _ _ _ _ => q⟩

def readFloat (c : FloatCodec) : Rd ℚ :=
  rbind (readUnpack 4) fun bs =>
    rpure (c.dec (bs.getD 0 0) (bs.getD 1 0) (bs.getD 2 0) (bs.getD 3 0))

/-- Decode `n` floats from consecutive 4-byte chunks. -/
def floatsOf (c : FloatCodec) : ℕ → Bytes → List ℚ
  | 0, _ => []
  | n + 1, bs =>
    c.dec (bs.getD 0 0) (bs.getD 1 0) (bs.getD 2 0) (bs.getD 3 0) ::
      floatsOf c n (bs.drop 4)

/-- `fs.read_vector(size)`: one `struct.unpack('<f'*size, fp.read(4*size))`. -/
def readVector (c : FloatCodec) (n : ℕ) : Rd (List ℚ) :=
  rbind (readUnpack (4 * n)) fun bs => rpure (floatsOf c n bs)

/-- `crop_byte_string(b, b'\x00')` = `b.split(b'\x00')[0]`. -/
def cropBytes (bs : Bytes) : Bytes := bs.takeWhile (fun b => b ≠ 0)

/-- `VMDFileReadStream.read_byte_vector(length)`: `length` signed bytes. -/
def readByteVector (n : ℕ) : Rd (List ℤ) :=
  rbind (readUnpack n) fun bs => rpure (bs.map (toSigned 1))

/-- Run `load` `n` times, collecting the results in order. -/
def rdReplicate {α : Type} (load : Rd α) : ℕ → Rd (List α)
  | 0 => rpure []
  | n + 1 =>
    rbind load fun a =>
    rbind (rdReplicate load n) fun rest =>
    rpure (a :: rest)

/-! ## VMD motion decoder (`io/vmd.py`)

Strings are kept as raw byte lists (`shift_jis` decoding with
`errors='replace'` never fails and none of the claims involve the decoded
text).  The `defaultdict` grouping of same-named bone/shape-key records is
represented by the ordered `(name, record)` list the loader appends to; the
grouping itself is a lossless reordering not needed by the claims. -/

/-- `VMD_SIGNATURE = b'Vocaloid Motion Data 0002'`, as ASCII byte values. -/
def vmdSignature : Bytes :=
  [86, 111, 99, 97, 108, 111, 105, 100, 32, 77, 111, 116, 105, 111, 110,
   32, 68, 97, 116, 97, 32, 48, 48, 48, 50]

structure VMDHeader where
  signature : Bytes
  modelName : Bytes
deriving DecidableEq

/-- `_load_header`: 30 signature bytes (NUL-cropped, compared to the exact
literal), then a 20-byte model name. -/
def loadVMDHeader : Rd VMDHeader :=
  rbind (readChars 30) fun sigRaw =>
  if cropBytes sigRaw ≠ vmdSignature then rdThrow .invalidFile
  else
    rbind (readChars 20) fun nameRaw =>
    rpure ⟨cropBytes sigRaw, cropBytes nameRaw⟩

structure BoneFrameKey where
  frameNumber : ℕ
  location : List ℚ
  rotation : List ℚ
  interpolation : List ℤ
deriving DecidableEq

/-- `_load_bone_frame_key`: frame number, translation, rotation quaternion
(replaced by the identity `(0,0,0,1)` when all four stored components are
zero — Python `if not any(frame_key.rotation)`), 64-byte interpolation
block. -/
def loadBoneFrameKey (c : FloatCodec) : Rd BoneFrameKey :=
  rbind readULong fun fn =>
  rbind (readVector c 3) fun loc =>
  rbind (readVector c 4) fun rot =>
  rbind (readByteVector 64) fun interp =>
  rpure ⟨fn, loc, if ∃ q ∈ rot, q ≠ 0 then rot else [0, 0, 0, 1], interp⟩

structure ShapeKeyFrameKey where
  frameNumber : ℕ
  weight : ℚ
deriving DecidableEq

def loadShapeKeyFrameKey (c : FloatCodec) : Rd ShapeKeyFrameKey :=
  rbind readULong fun fn =>
  rbind (readFloat c) fun w =>
  rpure ⟨fn, w⟩

structure CameraKeyFrameKey where
  frameNumber : ℕ
  distance : ℚ
  location : List ℚ
  rotation : List ℚ
  interpolation : List ℚ
  angle : ℕ
  perspective : Bool
deriving DecidableEq

def loadCameraKeyFrameKey (c : FloatCodec) : Rd CameraKeyFrameKey :=
  rbind readULong fun fn =>
  rbind (readFloat c) fun dist =>
  rbind (readVector c 3) fun loc =>
  rbind (readVector c 3) fun rot =>
  rbind (readVector c 6) fun interp =>
  rbind readULong fun angle =>
  rbind readByte fun p =>
  rpure ⟨fn, dist, loc, rot, interp, angle, p = 0⟩

structure LampKeyFrameKey where
  frameNumber : ℕ
  color : List ℚ
  direction : List ℚ
deriving DecidableEq

def loadLampKeyFrameKey (c : FloatCodec) : Rd LampKeyFrameKey :=
  rbind readULong fun fn =>
  rbind (readVector c 3) fun col =>
  rbind (readVector c 3) fun dir =>
  rpure ⟨fn, col, dir⟩

structure SelfShadowFrameKey where
  frameNumber : ℕ
  mode : ℤ
  distance : ℚ
deriving DecidableEq

/-- `_load_self_shadow_frame_key`: `distance = 10000 - raw * 10000`. -/
def loadSelfShadowFrameKey (c : FloatCodec) : Rd SelfShadowFrameKey :=
  rbind readULong fun fn =>
  rbind readByte fun mode =>
  rbind (readFloat c) fun raw =>
  rpure ⟨fn, mode, 10000 - raw * 10000⟩

structure PropertyFrameKey where
  frameNumber : ℕ
  isVisible : ℤ
  ikStates : List (Bytes × ℤ)
deriving DecidableEq

def loadIKState : Rd (Bytes × ℤ) :=
  rbind (readChars 20) fun nameRaw =>
  rbind readByte fun st =>
  rpure (cropBytes nameRaw, st)

def loadPropertyFrameKey (c : FloatCodec) : Rd PropertyFrameKey :=
  rbind readULong fun fn =>
  rbind readByte fun vis =>
  rbind (rbind readULong fun n => rdReplicate loadIKState n) fun iks =>
  rpure ⟨fn, vis, iks⟩

/-- `_loop_load` for VMD: a 4-byte unsigned record count, then that many
records. -/
def loopLoadVMD {α : Type} (load : Rd α) : Rd (List α) :=
  rbind readULong fun n => rdReplicate load n

/-- `_vmd_dict_load_fn` record: 15-byte NUL-cropped name, then the key. -/
def loadNamedKey {α : Type} (load : Rd α) : Rd (Bytes × α) :=
  rbind (readChars 15) fun nameRaw =>
  rbind load fun key =>
  rpure (cropBytes nameRaw, key)

def loadBoneAnimation (c : FloatCodec) : Rd (List (Bytes × BoneFrameKey)) :=
  loopLoadVMD (loadNamedKey (loadBoneFrameKey c))

def loadShapeKeyAnimation (c : FloatCodec) :
    Rd (List (Bytes × ShapeKeyFrameKey)) :=
  loopLoadVMD (loadNamedKey (loadShapeKeyFrameKey c))

def loadCameraAnimation (c : FloatCodec) : Rd (List CameraKeyFrameKey) :=
  loopLoadVMD (loadCameraKeyFrameKey c)

def loadLampAnimation (c : FloatCodec) : Rd (List LampKeyFrameKey) :=
  loopLoadVMD (loadLampKeyFrameKey c)

def loadSelfShadowAnimation (c : FloatCodec) : Rd (List SelfShadowFrameKey) :=
  loopLoadVMD (loadSelfShadowFrameKey c)

def loadPropertyAnimation (c : FloatCodec) : Rd (List PropertyFrameKey) :=
  loopLoadVMD (loadPropertyFrameKey c)

structure VMDFile where
  header : VMDHeader
  boneAnimation : List (Bytes × BoneFrameKey)
  shapeKeyAnimation : List (Bytes × ShapeKeyFrameKey)
  cameraAnimation : List CameraKeyFrameKey
  lampAnimation : List LampKeyFrameKey
  selfShadowAnimation : List SelfShadowFrameKey
  propertyAnimation : List PropertyFrameKey
deriving DecidableEq

/-- Header plus the four mandatory sections of `_load_file` (these always
carry a count, 0 when no data). -/
def loadVMDMandatory (c : FloatCodec) :
    Rd (VMDHeader × List (Bytes × BoneFrameKey) ×
      List (Bytes × ShapeKeyFrameKey) × List CameraKeyFrameKey ×
      List LampKeyFrameKey) :=
  rbind loadVMDHeader fun hdr =>
  rbind (loadBoneAnimation c) fun bone =>
  rbind (loadShapeKeyAnimation c) fun shape =>
  rbind (loadCameraAnimation c) fun cam =>
  rbind (loadLampAnimation c) fun lamp =>
  rpure (hdr, bone, shape, cam, lamp)

/-- `_load_file`: after the four mandatory sections, the self-shadow and
property sections are attempted; a `struct.error` whose message reports a
too-small buffer is swallowed (the fields keep the defaults they had at the
point of failure — empty lists), any other error propagates. -/
def loadVMDFile (c : FloatCodec) (s : Bytes) : Except RErr VMDFile :=
  match loadVMDMandatory c s with
  | .error e => .error e
  | .ok ((hdr, bone, shape, cam, lamp), s₂) =>
    match loadSelfShadowAnimation c s₂ with
    | .error .bufferTooSmall => .ok ⟨hdr, bone, shape, cam, lamp, [], []⟩
    | .error e => .error e
    | .ok (shadow, s₃) =>
      match loadPropertyAnimation c s₃ with
      | .error .bufferTooSmall => .ok ⟨hdr, bone, shape, cam, lamp, shadow, []⟩
      | .error e => .error e
      | .ok (property, _) => .ok ⟨hdr, bone, shape, cam, lamp, shadow, property⟩

/-! ## C10 / C5 theorems about the VMD decoder -/

/-- C10: for every decoded bone frame key, if all four stored
rotation-quaternion components are zero the decoded rotation is replaced by
the identity quaternion `(0, 0, 0, 1)`; otherwise the stored components are
kept unchanged.  (`rot` is the quaternion as read from the stream, before
normalisation.) -/
theorem loadBoneFrameKey_identity_normalisation (c : FloatCodec)
    (s s1 s2 s3 s4 : Bytes) (fn : ℕ) (loc rot : List ℚ) (interp : List ℤ)
    (h1 : readULong s = .ok (fn, s1))
    (h2 : readVector c 3 s1 = .ok (loc, s2))
    (h3 : readVector c 4 s2 = .ok (rot, s3))
    (h4 : readByteVector 64 s3 = .ok (interp, s4)) :
    ((∀ q ∈ rot, q = 0) →
      loadBoneFrameKey c s = .ok (⟨fn, loc, [0, 0, 0, 1], interp⟩, s4)) ∧
    ((∃ q ∈ rot, q ≠ 0) →
      loadBoneFrameKey c s = .ok (⟨fn, loc, rot, interp⟩, s4)) := by
  constructor
  · intro hz
    have hne : ¬ ∃ q ∈ rot, q ≠ 0 := by
      push_neg
      exact hz
    simp only [loadBoneFrameKey, rbind, h1, h2, h3, h4, rpure, hne, if_false]
  · intro hnz
    simp only [loadBoneFrameKey, rbind, h1, h2, h3, h4, rpure, hnz, if_true]

/-- Witness for `loadBoneFrameKey_identity_normalisation`: a 96-byte record
of zeros; the stored quaternion `(0,0,0,0)` is normalised to `(0,0,0,1)`. -/
theorem loadBoneFrameKey_identity_normalisation_witness :
    loadBoneFrameKey (constCodec 0) (List.replicate 96 0) =
      .ok (⟨0, [0, 0, 0], [0, 0, 0, 1], List.replicate 64 0⟩, []) := by
  have h1 : readULong (List.replicate 96 (0 : ℕ)) =
      .ok (0, List.replicate 92 0) := by
    norm_num [readULong, readUIntN, readUnpack, rbind, rpure, leNat,
      List.replicate]
  have h2 : readVector (constCodec 0) 3 (List.replicate 92 (0 : ℕ)) =
      .ok ([0, 0, 0], List.replicate 80 0) := by
    norm_num [readVector, readUnpack, rbind, rpure, floatsOf, constCodec,
      List.replicate]
  have h3 : readVector (constCodec 0) 4 (List.replicate 80 (0 : ℕ)) =
      .ok ([0, 0, 0, 0], List.replicate 64 0) := by
    norm_num [readVector, readUnpack, rbind, rpure, floatsOf, constCodec,
      List.replicate]
  have h4 : readByteVector 64 (List.replicate 64 (0 : ℕ)) =
      .ok (List.replicate 64 0, []) := by
    norm_num [readByteVector, readUnpack, rbind, rpure, toSigned,
      List.replicate]
  exact (loadBoneFrameKey_identity_normalisation (constCodec 0) _ _ _ _ _ _ _ _ _
    h1 h2 h3 h4).1 (by norm_num)

/-- A minimal motion stream: 30-byte signature block, 20-byte model name,
and the four mandatory sections with zero counts, then end of stream. -/
def vmdMinimalStream : Bytes := [86, 111, 99, 97, 108, 111, 105, 100, 32, 77, 111, 116, 105, 111, 110, 32, 68, 97, 116, 97, 32, 48, 48, 48, 50, 0, 0, 0, 0, 0, 0, 0, 0, 0, 0, 0, 0, 0, 0, 0, 0, 0, 0, 0, 0, 0, 0, 0, 0, 0, 0, 0, 0, 0, 0, 0, 0, 0, 0, 0, 0, 0, 0, 0, 0, 0]

/-- `vmdMinimalStream` followed by a complete self-shadow section with one
record (count 1; frame 0, mode 0, raw distance bytes 0) and then a property
section truncated inside its 4-byte count. -/
def vmdShadowThenTruncatedStream : Bytes := [86, 111, 99, 97, 108, 111, 105, 100, 32, 77, 111, 116, 105, 111, 110, 32, 68, 97, 116, 97, 32, 48, 48, 48, 50, 0, 0, 0, 0, 0, 0, 0, 0, 0, 0, 0, 0, 0, 0, 0, 0, 0, 0, 0, 0, 0, 0, 0, 0, 0, 0, 0, 0, 0, 0, 0, 0, 0, 0, 0, 0, 0, 0, 0, 0, 0, 1, 0, 0, 0, 0, 0, 0, 0, 0, 0, 0, 0, 0, 0, 0]

/-- C5 counterexample: a stream that validly contains the header and the
four mandatory sections and then truncates *inside the property section*
(after a complete one-record self-shadow section) decodes successfully, but
the self-shadow track is **not** an empty list — it keeps the record decoded
before the truncation point. -/
theorem loadVMDFile_shadow_kept_on_property_truncation :
    loadVMDFile (constCodec 0) vmdShadowThenTruncatedStream =
      .ok ⟨⟨vmdSignature, []⟩, [], [], [], [],
        [⟨0, 0, 10000⟩], []⟩ ∧
      ([(⟨0, 0, 10000⟩ : SelfShadowFrameKey)] ≠ []) := by
  constructor
  · norm_num [loadVMDFile, loadVMDMandatory, loadVMDHeader, loadBoneAnimation,
      loadShapeKeyAnimation, loadCameraAnimation, loadLampAnimation,
      loadSelfShadowAnimation, loadPropertyAnimation, loadSelfShadowFrameKey,
      loopLoadVMD, rdReplicate, readChars, readULong, readUIntN, readByte,
      readIntN, readUnpack, readFloat, rbind, rpure, leNat, toSigned,
      cropBytes, List.takeWhile, constCodec, vmdShadowThenTruncatedStream,
      vmdSignature]
  · simp

/-- C5 (amended): when the four mandatory sections decode successfully, a
short-read (`struct.error` reporting a too-small buffer) while decoding the
self-shadow section leaves **both** optional tracks as empty lists and the
load succeeds; a short-read while decoding the property section leaves the
property track empty but keeps the already-assigned self-shadow track; a
failure of either section that is not a short-read propagates to the
caller. -/
theorem loadVMDFile_optional_section_recovery (c : FloatCodec) (s u : Bytes)
    (hdr : VMDHeader) (bone : List (Bytes × BoneFrameKey))
    (shape : List (Bytes × ShapeKeyFrameKey)) (cam : List CameraKeyFrameKey)
    (lamp : List LampKeyFrameKey)
    (hm : loadVMDMandatory c s = .ok ((hdr, bone, shape, cam, lamp), u)) :
    (loadSelfShadowAnimation c u = .error .bufferTooSmall →
      loadVMDFile c s = .ok ⟨hdr, bone, shape, cam, lamp, [], []⟩) ∧
    (∀ shadow v, loadSelfShadowAnimation c u = .ok (shadow, v) →
      loadPropertyAnimation c v = .error .bufferTooSmall →
      loadVMDFile c s = .ok ⟨hdr, bone, shape, cam, lamp, shadow, []⟩) ∧
    (∀ e, loadSelfShadowAnimation c u = .error e → e ≠ .bufferTooSmall →
      loadVMDFile c s = .error e) ∧
    (∀ shadow v e, loadSelfShadowAnimation c u = .ok (shadow, v) →
      loadPropertyAnimation c v = .error e → e ≠ .bufferTooSmall →
      loadVMDFile c s = .error e) := by
  refine ⟨?_, ?_, ?_, ?_⟩
  · intro hss
    simp only [loadVMDFile, hm, hss]
  · intro shadow v hss hpp
    simp only [loadVMDFile, hm, hss, hpp]
  · intro e hss hne
    cases e <;> simp_all [loadVMDFile, hm, hss]
  · intro shadow v e hss hpp hne
    cases e <;> simp_all [loadVMDFile, hm, hss, hpp]

/-- Witness for `loadVMDFile_optional_section_recovery`, exercising both
recovery conjuncts: the minimal stream (both tracks empty) and the
shadow-then-truncated stream (shadow kept, property empty). -/
theorem loadVMDFile_optional_section_recovery_witness :
    loadVMDFile (constCodec 0) vmdMinimalStream =
      .ok ⟨⟨vmdSignature, []⟩, [], [], [], [], [], []⟩ ∧
    loadVMDFile (constCodec 0) vmdShadowThenTruncatedStream =
      .ok ⟨⟨vmdSignature, []⟩, [], [], [], [], [⟨0, 0, 10000⟩], []⟩ := by
  have hm1 : loadVMDMandatory (constCodec 0) vmdMinimalStream =
      .ok ((⟨vmdSignature, []⟩, [], [], [], []), []) := by
    norm_num [loadVMDMandatory, loadVMDHeader, loadBoneAnimation,
      loadShapeKeyAnimation, loadCameraAnimation, loadLampAnimation,
      loopLoadVMD, rdReplicate, readChars, readULong, readUIntN, readUnpack,
      rbind, rpure, leNat, cropBytes, List.takeWhile, vmdMinimalStream,
      vmdSignature]
  have hm2 : loadVMDMandatory (constCodec 0) vmdShadowThenTruncatedStream =
      .ok ((⟨vmdSignature, []⟩, [], [], [], []),
        [1, 0, 0, 0, 0, 0, 0, 0, 0, 0, 0, 0, 0, 0, 0]) := by
    norm_num [loadVMDMandatory, loadVMDHeader, loadBoneAnimation,
      loadShapeKeyAnimation, loadCameraAnimation, loadLampAnimation,
      loopLoadVMD, rdReplicate, readChars, readULong, readUIntN, readUnpack,
      rbind, rpure, leNat, cropBytes, List.takeWhile,
      vmdShadowThenTruncatedStream, vmdSignature]
  have hss1 : loadSelfShadowAnimation (constCodec 0) [] =
      .error .bufferTooSmall := by
    norm_num [loadSelfShadowAnimation, loopLoadVMD, readULong, readUIntN,
      readUnpack, rbind, rpure]
  have hss2 : loadSelfShadowAnimation (constCodec 0)
      [1, 0, 0, 0, 0, 0, 0, 0, 0, 0, 0, 0, 0, 0, 0] =
      .ok ([⟨0, 0, 10000⟩], [0, 0]) := by
    norm_num [loadSelfShadowAnimation, loadSelfShadowFrameKey, loopLoadVMD,
      rdReplicate, readULong, readUIntN, readByte, readIntN, readUnpack,
      readFloat, rbind, rpure, leNat, toSigned, constCodec]
  have hpp2 : loadPropertyAnimation (constCodec 0) [0, 0] =
      .error .bufferTooSmall := by
    norm_num [loadPropertyAnimation, loopLoadVMD, readULong, readUIntN,
      readUnpack, rbind, rpure]
  exact ⟨(loadVMDFile_optional_section_recovery (constCodec 0) _ _ _ _ _ _ _
      hm1).1 hss1,
    ((loadVMDFile_optional_section_recovery (constCodec 0) _ _ _ _ _ _ _
      hm2).2.1) [⟨0, 0, 10000⟩] [0, 0] hss2 hpp2⟩

/-! ## Inversion helpers for the reader -/

lemma rbind_ok {α β : Type} {m : Rd α} {f : α → Rd β} {s : Bytes}
    {b : β} {s₂ : Bytes} (h : rbind m f s = .ok (b, s₂)) :
    ∃ a s₁, m s = .ok (a, s₁) ∧ f a s₁ = .ok (b, s₂) := by
  unfold rbind at h
  rcases hm : m s with e | p
  · rw [hm] at h
    exact absurd h (by simp)
  · rw [hm] at h
    exact ⟨p.1, p.2, rfl, h⟩

lemma rpure_ok {α : Type} {a b : α} {s s₂ : Bytes}
    (h : rpure a s = .ok (b, s₂)) : b = a ∧ s₂ = s := by
  unfold rpure at h
  simp only [Except.ok.injEq, Prod.mk.injEq] at h
  exact ⟨h.1.symm, h.2.symm⟩

lemma rdThrow_ne_ok {α : Type} {e : RErr} {s : Bytes} {x : α × Bytes} :
    rdThrow e s ≠ .ok x := by
  simp [rdThrow]

/-! ## PMX model decoder (`io/pmx.py`)

Strings are kept as raw byte lists (both encodings decode with
`errors='replace'`, which cannot fail, and no claim involves the text
itself); `_load_texture`'s filesystem path normalisation is host
environment-dependent and also keeps the raw bytes here. -/

/-- `PMX_SIGNATURE = b'PMX '`, as ASCII byte values. -/
def pmxSignature : Bytes := [80, 77, 88, 32]

structure PMXHeader where
  signature : Bytes
  version : ℚ
  encodingIndex : ℤ
  additionalUVs : ℕ
  vertexIndexSize : ℕ
  textureIndexSize : ℕ
  materialIndexSize : ℕ
  boneIndexSize : ℕ
  morphIndexSize : ℕ
  rigidIndexSize : ℕ
deriving DecidableEq

/-- `_load_header`: `read_bytes(4)` (a plain read, tolerant of a short
stream), fatal only when the first *three* signature bytes differ from
`b'PMX'`; a fourth-byte or format-marker mismatch merely warns.  The version
float must equal 2.0 exactly.  Then the encoding selector byte, the
additional-UV count and the six per-category index byte widths. -/
def loadPMXHeader (c : FloatCodec) : Rd PMXHeader :=
  rbind (readRaw 4) fun sig =>
  if sig.take 3 ≠ pmxSignature.take 3 then rdThrow .invalidFile
  else
    rbind (readFloat c) fun ver =>
    if ver ≠ 2 then rdThrow .unsupportedVersion
    else
      rbind readUByte fun _headerByte =>
      rbind readByte fun enc =>
      rbind readUByte fun auvs =>
      rbind readUByte fun vsz =>
      rbind readUByte fun tsz =>
      rbind readUByte fun msz =>
      rbind readUByte fun bsz =>
      rbind readUByte fun phsz =>
      rbind readUByte fun rsz =>
      rpure ⟨sig, ver, enc, auvs, vsz, tsz, msz, bsz, phsz, rsz⟩

/-- `_read_index`: the unpack format for the declared width is looked up in
a dict keyed by `{1, 2, 4}` — any other declared width raises `KeyError` on
the first index read. -/
def readIndex (size : ℕ) (unsigned : Bool) : Rd ℤ :=
  if size = 1 ∨ size = 2 ∨ size = 4 then
    if unsigned then rbind (readUIntN size) fun v => rpure (v : ℤ)
    else readIntN size
  else rdThrow .keyError

def readVertexIndex (hdr : PMXHeader) : Rd ℤ :=
  readIndex hdr.vertexIndexSize true

def readBoneIndex (hdr : PMXHeader) : Rd ℤ :=
  readIndex hdr.boneIndexSize false

def readTextureIndex (hdr : PMXHeader) : Rd ℤ :=
  readIndex hdr.textureIndexSize false

def readMorphIndex (hdr : PMXHeader) : Rd ℤ :=
  readIndex hdr.morphIndexSize false

def readRigidIndex (hdr : PMXHeader) : Rd ℤ :=
  readIndex hdr.rigidIndexSize false

def readMaterialIndex (hdr : PMXHeader) : Rd ℤ :=
  readIndex hdr.materialIndexSize false

/-- `read_str`: a 4-byte signed length, then that many raw bytes.  A
negative length makes `struct.unpack` reject the format string — a
`struct.error` that is *not* a short read. -/
def readStr : Rd Bytes :=
  rbind readInt fun len =>
  if len < 0 then rdThrow .structFormat
  else readUnpack len.toNat

/-- `_loop_load`: a 4-byte signed count, floor-divided by `step`; `range` of
a non-positive value runs zero iterations. -/
def loopLoadPMX {α : Type} (step : ℕ) (load : Rd α) : Rd (List α) :=
  rbind readInt fun n => rdReplicate load ((n.fdiv step).toNat)

/-- `parse_flags(flag, max_flags)[shift]` = `bool(flag & (1 << shift))`.
All uses have `max_flags ≤ 14` and `flag` either an unsigned byte or a
signed short; for `shift < 16`, the two's-complement bit equals the bit of
the value mod 2¹⁶. -/
def parseFlag (flag : ℤ) (shift : ℕ) : Bool :=
  ((flag % 65536).toNat).testBit shift

/-- The `weights` attribute of a decoded `pmx.BoneWeight`: `None` by
default, a single float (BDEF1 stores the literal `1.0`, BDEF2 the read
scalar), a 4-vector (BDEF4), or the SDEF record (scalar + three vectors). -/
inductive PMXWeights where
  | unset
  | scalar (w : ℚ)
  | vec4 (ws : List ℚ)
  | sdefW (w : ℚ) (center r0 r1 : List ℚ)
deriving DecidableEq

structure PMXBoneWeight where
  type : ℕ
  bones : List ℤ
  weights : PMXWeights
deriving DecidableEq

/-- `_load_bone_weight`: dispatch on the weight-type byte (BDEF1 = 0,
BDEF2 = 1, BDEF4 = 2, SDEF = 3); any other tag reads nothing further and
leaves the `weights` default. -/
def loadBoneWeight (c : FloatCodec) (hdr : PMXHeader) : Rd PMXBoneWeight :=
  rbind readUByte fun ty =>
  if ty = 0 then
    rbind (readBoneIndex hdr) fun b1 =>
    rpure ⟨ty, [b1], .scalar 1⟩
  else if ty = 1 then
    rbind (readBoneIndex hdr) fun b1 =>
    rbind (readBoneIndex hdr) fun b2 =>
    rbind (readFloat c) fun w =>
    rpure ⟨ty, [b1, b2], .scalar w⟩
  else if ty = 2 then
    rbind (readBoneIndex hdr) fun b1 =>
    rbind (readBoneIndex hdr) fun b2 =>
    rbind (readBoneIndex hdr) fun b3 =>
    rbind (readBoneIndex hdr) fun b4 =>
    rbind (readVector c 4) fun ws =>
    rpure ⟨ty, [b1, b2, b3, b4], .vec4 ws⟩
  else if ty = 3 then
    rbind (readBoneIndex hdr) fun b1 =>
    rbind (readBoneIndex hdr) fun b2 =>
    rbind (readFloat c) fun w =>
    rbind (readVector c 3) fun ctr =>
    rbind (readVector c 3) fun r0 =>
    rbind (readVector c 3) fun r1 =>
    rpure ⟨ty, [b1, b2], .sdefW w ctr r0 r1⟩
  else rpure ⟨ty, [], .unset⟩

structure PMXVertex where
  vertex : List ℚ
  normal : List ℚ
  uv : List ℚ
  additionalUVs : List (List ℚ)
  weight : PMXBoneWeight
  edgeScale : ℚ
deriving DecidableEq

/-- `_load_vertex`. -/
def loadVertex (c : FloatCodec) (hdr : PMXHeader) : Rd PMXVertex :=
  rbind (readVector c 3) fun v =>
  rbind (readVector c 3) fun nrm =>
  rbind (readVector c 2) fun uv =>
  rbind (rdReplicate (readVector c 4) hdr.additionalUVs) fun auvs =>
  rbind (loadBoneWeight c hdr) fun w =>
  rbind (readFloat c) fun es =>
  rpure ⟨v, nrm, uv, auvs, w, es⟩

/-! ## PMX → MMD vertex weight conversion (`core/mmd/convert.py`) -/

/-- `atleast_4d(value, fill=0)`: a length-4 array of `fill` with the leading
entries overwritten by `value`. -/
def atLeast4 (vals : List ℚ) (fill : ℚ) : List ℚ :=
  vals.take 4 ++ List.replicate (4 - vals.length) fill

/-- The bone-weight branch of `from_pmx`: BDEF4 and BDEF1 use the stored
weights as-is; BDEF2 takes the stored scalar `w` and its complement
`1 - w`; SDEF takes the nested scalar and its complement.  Any other tag
leaves the local `weight` variable unbound (modelled as `none`).  The
vertex's `bone_weights` is `atleast_4d` of the result. -/
def convertVertexWeights (w : PMXBoneWeight) : Option (List ℚ) :=
  if w.type = 2 ∨ w.type = 0 then
    match w.weights with
    | .scalar q => some (atLeast4 [q] 0)
    | .vec4 ws => some (atLeast4 ws 0)
    | _ => none
  else if w.type = 1 then
    match w.weights with
    | .scalar q => some (atLeast4 [q, 1 - q] 0)
    | _ => none
  else if w.type = 3 then
    match w.weights with
    | .sdefW q _ _ _ => some (atLeast4 [q, 1 - q] 0)
    | _ => none
  else none

lemma loadBoneWeight_bdef2_shape {c : FloatCodec} {hdr : PMXHeader}
    {s : Bytes} {bw : PMXBoneWeight} {s₂ : Bytes}
    (h : loadBoneWeight c hdr s = .ok (bw, s₂)) (hty : bw.type = 1) :
    ∃ w, bw.weights = .scalar w := by
  obtain ⟨ty, s₁, hub, h⟩ := rbind_ok (h := by
    simpa only [loadBoneWeight] using h)
  by_cases h0 : ty = 0
  · rw [if_pos h0] at h
    obtain ⟨b1, u1, hr1, h⟩ := rbind_ok h
    obtain ⟨hbw, -⟩ := rpure_ok h
    rw [hbw] at hty
    simp [h0] at hty
  · rw [if_neg h0] at h
    by_cases h1 : ty = 1
    · rw [if_pos h1] at h
      obtain ⟨b1, u1, hr1, h⟩ := rbind_ok h
      obtain ⟨b2, u2, hr2, h⟩ := rbind_ok h
      obtain ⟨w, u3, hr3, h⟩ := rbind_ok h
      obtain ⟨hbw, -⟩ := rpure_ok h
      rw [hbw]
      exact ⟨w, rfl⟩
    · rw [if_neg h1] at h
      by_cases h2 : ty = 2
      · rw [if_pos h2] at h
        obtain ⟨b1, u1, hr1, h⟩ := rbind_ok h
        obtain ⟨b2, u2, hr2, h⟩ := rbind_ok h
        obtain ⟨b3, u3, hr3, h⟩ := rbind_ok h
        obtain ⟨b4, u4, hr4, h⟩ := rbind_ok h
        obtain ⟨ws, u5, hr5, h⟩ := rbind_ok h
        obtain ⟨hbw, -⟩ := rpure_ok h
        rw [hbw] at hty
        simp only at hty
        omega
      · rw [if_neg h2] at h
        by_cases h3 : ty = 3
        · rw [if_pos h3] at h
          obtain ⟨b1, u1, hr1, h⟩ := rbind_ok h
          obtain ⟨b2, u2, hr2, h⟩ := rbind_ok h
          obtain ⟨w, u3, hr3, h⟩ := rbind_ok h
          obtain ⟨ctr, u4, hr4, h⟩ := rbind_ok h
          obtain ⟨r0, u5, hr5, h⟩ := rbind_ok h
          obtain ⟨r1, u6, hr6, h⟩ := rbind_ok h
          obtain ⟨hbw, -⟩ := rpure_ok h
          rw [hbw] at hty
          simp only at hty
          omega
        · rw [if_neg h3] at h
          obtain ⟨hbw, -⟩ := rpure_ok h
          rw [hbw] at hty
          simp only at hty
          omega

lemma loadBoneWeight_sdef_shape {c : FloatCodec} {hdr : PMXHeader}
    {s : Bytes} {bw : PMXBoneWeight} {s₂ : Bytes}
    (h : loadBoneWeight c hdr s = .ok (bw, s₂)) (hty : bw.type = 3) :
    ∃ w ctr r0 r1, bw.weights = .sdefW w ctr r0 r1 := by
  obtain ⟨ty, s₁, hub, h⟩ := rbind_ok (h := by
    simpa only [loadBoneWeight] using h)
  by_cases h0 : ty = 0
  · rw [if_pos h0] at h
    obtain ⟨b1, u1, hr1, h⟩ := rbind_ok h
    obtain ⟨hbw, -⟩ := rpure_ok h
    rw [hbw] at hty
    simp only at hty
    omega
  · rw [if_neg h0] at h
    by_cases h1 : ty = 1
    · rw [if_pos h1] at h
      obtain ⟨b1, u1, hr1, h⟩ := rbind_ok h
      obtain ⟨b2, u2, hr2, h⟩ := rbind_ok h
      obtain ⟨w, u3, hr3, h⟩ := rbind_ok h
      obtain ⟨hbw, -⟩ := rpure_ok h
      rw [hbw] at hty
      simp only at hty
      omega
    · rw [if_neg h1] at h
      by_cases h2 : ty = 2
      · rw [if_pos h2] at h
        obtain ⟨b1, u1, hr1, h⟩ := rbind_ok h
        obtain ⟨b2, u2, hr2, h⟩ := rbind_ok h
        obtain ⟨b3, u3, hr3, h⟩ := rbind_ok h
        obtain ⟨b4, u4, hr4, h⟩ := rbind_ok h
        obtain ⟨ws, u5, hr5, h⟩ := rbind_ok h
        obtain ⟨hbw, -⟩ := rpure_ok h
        rw [hbw] at hty
        simp only at hty
        omega
      · rw [if_neg h2] at h
        by_cases h3 : ty = 3
        · rw [if_pos h3] at h
          obtain ⟨b1, u1, hr1, h⟩ := rbind_ok h
          obtain ⟨b2, u2, hr2, h⟩ := rbind_ok h
          obtain ⟨w, u3, hr3, h⟩ := rbind_ok h
          obtain ⟨ctr, u4, hr4, h⟩ := rbind_ok h
          obtain ⟨r0, u5, hr5, h⟩ := rbind_ok h
          obtain ⟨r1, u6, hr6, h⟩ := rbind_ok h
          obtain ⟨hbw, -⟩ := rpure_ok h
          rw [hbw]
          exact ⟨w, ctr, r0, r1, rfl⟩
        · rw [if_neg h3] at h
          obtain ⟨hbw, -⟩ := rpure_ok h
          rw [hbw] at hty
          simp only at hty
          omega

/-- C3: for every bone weight produced by the decoder, the four resolved
weight components produced by model conversion sum to exactly 1 for the
BDEF2 and SDEF variants (second component = `1 - w`), and for the BDEF4
variant whenever the four stored weights themselves sum to 1.  (Exact
rational arithmetic; in IEEE floats this is equality within epsilon.) -/
theorem convertVertexWeights_sum_one {c : FloatCodec} {hdr : PMXHeader}
    {s : Bytes} {bw : PMXBoneWeight} {s₂ : Bytes}
    (h : loadBoneWeight c hdr s = .ok (bw, s₂)) :
    (bw.type = 1 ∨ bw.type = 3 →
      ∃ ws, convertVertexWeights bw = some ws ∧ ws.length = 4 ∧
        ws.sum = 1) ∧
    (∀ ws0, bw.type = 2 → bw.weights = .vec4 ws0 → ws0.length = 4 →
      ws0.sum = 1 →
      ∃ ws, convertVertexWeights bw = some ws ∧ ws.length = 4 ∧
        ws.sum = 1) := by
  constructor
  · intro hty
    rcases hty with hty | hty
    · obtain ⟨w, hw⟩ := loadBoneWeight_bdef2_shape h hty
      refine ⟨[w, 1 - w, 0, 0], ?_, by simp, by ring_nf; simp⟩
      simp [convertVertexWeights, hty, hw, atLeast4]
    · obtain ⟨w, ctr, r0, r1, hw⟩ := loadBoneWeight_sdef_shape h hty
      refine ⟨[w, 1 - w, 0, 0], ?_, by simp, by ring_nf; simp⟩
      simp [convertVertexWeights, hty, hw, atLeast4]
  · intro ws0 hty hw hlen hsum
    refine ⟨ws0, ?_, ?_, hsum⟩
    · simp [convertVertexWeights, hty, hw, atLeast4, hlen,
        List.take_of_length_le (by omega : ws0.length ≤ 4)]
    · exact hlen

/-- Witness for `convertVertexWeights_sum_one`: a BDEF2 weight (type byte 1)
with 1-byte bone indices 0 and 1 and a stored scalar of 0 (all float fields
decode to 0 under `constCodec 0`): the resolved components are
`[0, 1, 0, 0]`. -/
theorem convertVertexWeights_sum_one_witness :
    convertVertexWeights ⟨1, [0, 1], .scalar 0⟩ = some [0, 1, 0, 0] ∧
      ([0, 1, 0, 0] : List ℚ).sum = 1 := by
  have hload : loadBoneWeight (constCodec 0)
      ⟨pmxSignature, 2, 0, 0, 1, 1, 1, 1, 1, 1⟩ [1, 0, 1, 0, 0, 0, 0] =
      .ok (⟨1, [0, 1], .scalar 0⟩, []) := by
    norm_num [loadBoneWeight, readBoneIndex, readIndex, readIntN, readUIntN,
      readUByte, readUnpack, readFloat, rbind, rpure, leNat, toSigned,
      constCodec]
  have h := (convertVertexWeights_sum_one hload).1 (Or.inl rfl)
  obtain ⟨ws, hconv, hlen, hsum⟩ := h
  have hws : ws = [0, 1, 0, 0] := by
    have : convertVertexWeights ⟨1, [0, 1], .scalar 0⟩ =
        some [(0 : ℚ), 1 - 0, 0, 0] := by
      norm_num [convertVertexWeights, atLeast4, List.replicate]
    rw [this] at hconv
    simpa using hconv.symm
  rw [hws] at hconv hsum
  exact ⟨hconv, hsum⟩

/-! ## Remaining PMX section loaders -/

/-- `_load_face`: three unsigned vertex indices. -/
def loadFace (hdr : PMXHeader) : Rd (ℤ × ℤ × ℤ) :=
  rbind (readVertexIndex hdr) fun a =>
  rbind (readVertexIndex hdr) fun b =>
  rbind (readVertexIndex hdr) fun d =>
  rpure (a, b, d)

/-- `_load_texture` (the raw path bytes; `os.path` normalisation is host
state and not modelled). -/
def loadTexture : Rd Bytes := readStr

structure PMXMaterial where
  name : Bytes
  nameEn : Bytes
  diffuse : List ℚ
  specularColor : List ℚ
  specularScale : ℚ
  ambientColor : List ℚ
  isDoubleSided : Bool
  enabledDropShadow : Bool
  enabledSelfShadowMap : Bool
  enabledSelfShadow : Bool
  enabledToonEdge : Bool
  edgeColor : List ℚ
  edgeSize : ℚ
  textureIndex : ℤ
  sphereTextureIndex : ℤ
  sphereTextureMode : ℕ
  isSharedToonTexture : Bool
  toonTextureNumber : ℤ
  comment : Bytes
  faceVertexCount : ℤ
deriving DecidableEq

/-- `_load_material` (the `num_textures` argument is accepted and unused,
as in the source). -/
def loadMaterial (c : FloatCodec) (hdr : PMXHeader) (_numTextures : ℕ) :
    Rd PMXMaterial :=
  rbind readStr fun nm =>
  rbind readStr fun ne =>
  rbind (readVector c 4) fun diff =>
  rbind (readVector c 3) fun spec =>
  rbind (readFloat c) fun specScale =>
  rbind (readVector c 3) fun amb =>
  rbind readUByte fun flags =>
  rbind (readVector c 4) fun edgeCol =>
  rbind (readFloat c) fun edgeSize =>
  rbind (readTextureIndex hdr) fun texIdx =>
  rbind (readTextureIndex hdr) fun sphIdx =>
  rbind readUByte fun sphMode =>
  rbind readByte fun sharedToon =>
  rbind (if sharedToon = 1 then readByte else readTextureIndex hdr)
    fun toonNum =>
  rbind readStr fun cmt =>
  rbind readInt fun fvc =>
  rpure ⟨nm, ne, diff, spec, specScale, amb,
    parseFlag flags 0, parseFlag flags 1, parseFlag flags 2,
    parseFlag flags 3, parseFlag flags 4,
    edgeCol, edgeSize, texIdx, sphIdx, sphMode,
    sharedToon = 1, toonNum, cmt, fvc⟩

structure PMXIKLink where
  targetBone : ℤ
  hasRotationLimit : ℤ
  minimumAngle : Option (List ℚ)
  maximumAngle : Option (List ℚ)
deriving DecidableEq

/-- `_load_ik_link`. -/
def loadIKLink (c : FloatCodec) (hdr : PMXHeader) : Rd PMXIKLink :=
  rbind (readBoneIndex hdr) fun tb =>
  rbind readByte fun hrl =>
  if hrl = 1 then
    rbind (readVector c 3) fun mn =>
    rbind (readVector c 3) fun mx =>
    rpure ⟨tb, hrl, some mn, some mx⟩
  else rpure ⟨tb, hrl, none, none⟩

structure PMXIK where
  targetBone : ℤ
  iterations : ℤ
  radiusRange : ℚ
  ikLinks : List PMXIKLink
deriving DecidableEq

/-- `_load_ik`. -/
def loadIK (c : FloatCodec) (hdr : PMXHeader) : Rd PMXIK :=
  rbind (readBoneIndex hdr) fun tb =>
  rbind readInt fun iters =>
  rbind (readFloat c) fun rr =>
  rbind (loopLoadPMX 1 (loadIKLink c hdr)) fun links =>
  rpure ⟨tb, iters, rr, links⟩

structure PMXBone where
  name : Bytes
  nameEn : Bytes
  location : List ℚ
  parentIndex : ℤ
  transformOrder : ℤ
  displayConnection : ℤ ⊕ List ℚ
  isRotation : Bool
  isMovable : Bool
  isVisible : Bool
  isControllable : Bool
  isIK : Bool
  hasAdditionalLocation : Bool
  hasAdditionalRotation : Bool
  additionalTransform : Option (ℤ × ℚ)
  axisVector : Option (List ℚ)
  hasLocalAxis : Bool
  localXAxis : Option (List ℚ)
  localZAxis : Option (List ℚ)
  transformAfterPhysics : Bool
  outsideParentUpdate : Bool
  outsideParentKey : Option ℤ
  ik : Option PMXIK
deriving DecidableEq

/-- `_load_bone`: a 14-bit flag field read as a signed short drives the
optional trailing blocks.  Note the source sets both
`transform_after_physics` and `outside_parent_update` from flag bit 12
(bit 13 goes unused), reproduced here. -/
def loadBone (c : FloatCodec) (hdr : PMXHeader) : Rd PMXBone :=
  rbind readStr fun nm =>
  rbind readStr fun ne =>
  rbind (readVector c 3) fun loc =>
  rbind (readBoneIndex hdr) fun parentIdx =>
  rbind readInt fun tOrder =>
  rbind (readIntN 2) fun flags =>
  rbind (if parseFlag flags 0 then
      rbind (readBoneIndex hdr) fun b => rpure (Sum.inl b)
    else
      rbind (readVector c 3) fun v => rpure (Sum.inr v)) fun dispConn =>
  rbind (if parseFlag flags 8 ∨ parseFlag flags 9 then
      rbind (readBoneIndex hdr) fun t =>
      rbind (readFloat c) fun v =>
      rpure (some (t, v))
    else rpure none) fun addTrans =>
  rbind (if parseFlag flags 10 then
      rbind (readVector c 3) fun v => rpure (some v)
    else rpure none) fun axisVec =>
  rbind (if parseFlag flags 11 then
      rbind (readVector c 3) fun vx =>
      rbind (readVector c 3) fun vz =>
      rpure (some vx, some vz)
    else rpure (none, none)) fun localAxes =>
  rbind (if parseFlag flags 12 then
      rbind readInt fun k => rpure (some k)
    else rpure none) fun outsideKey =>
  rbind (if parseFlag flags 5 then
      rbind (loadIK c hdr) fun ik => rpure (some ik)
    else rpure none) fun ik =>
  rpure ⟨nm, ne, loc, parentIdx, tOrder, dispConn,
    parseFlag flags 1, parseFlag flags 2, parseFlag flags 3,
    parseFlag flags 4, parseFlag flags 5,
    parseFlag flags 8, parseFlag flags 9,
    addTrans, axisVec, parseFlag flags 11, localAxes.1, localAxes.2,
    parseFlag flags 12, parseFlag flags 12, outsideKey, ik⟩

inductive PMXMorphOffset where
  | group (morphIndex : ℤ) (factor : ℚ)
  | vertexOff (vertexIndex : ℤ) (offset : List ℚ)
  | bone (boneIndex : ℤ) (locationOffset : List ℚ) (rotationOffset : List ℚ)
  | uv (vertexIndex : ℤ) (offset : List ℚ)
  | material (materialIndex : ℤ) (offsetType : ℤ) (diffuse : List ℚ)
      (specular : List ℚ) (specularAlpha : ℚ) (ambient : List ℚ)
      (edgeColor : List ℚ) (edgeSize : ℚ) (textureAlpha : List ℚ)
      (sphereAlpha : List ℚ) (toonTextureAlpha : List ℚ)
deriving DecidableEq

def loadGroupMorphOffset (c : FloatCodec) (hdr : PMXHeader) :
    Rd PMXMorphOffset :=
  rbind (readMorphIndex hdr) fun mi =>
  rbind (readFloat c) fun f =>
  rpure (.group mi f)

def loadVertexMorphOffset (c : FloatCodec) (hdr : PMXHeader) :
    Rd PMXMorphOffset :=
  rbind (readVertexIndex hdr) fun vi =>
  rbind (readVector c 3) fun off =>
  rpure (.vertexOff vi off)

/-- `_load_bone_morph_offset`: an all-zero stored rotation quaternion is
normalised to the identity `(0, 0, 0, 1)`. -/
def loadBoneMorphOffset (c : FloatCodec) (hdr : PMXHeader) :
    Rd PMXMorphOffset :=
  rbind (readBoneIndex hdr) fun bi =>
  rbind (readVector c 3) fun loc =>
  rbind (readVector c 4) fun rot =>
  rpure (.bone bi loc (if ∃ q ∈ rot, q ≠ 0 then rot else [0, 0, 0, 1]))

def loadUVMorphOffset (c : FloatCodec) (hdr : PMXHeader) :
    Rd PMXMorphOffset :=
  rbind (readVertexIndex hdr) fun vi =>
  rbind (readVector c 4) fun off =>
  rpure (.uv vi off)

def loadMaterialMorphOffset (c : FloatCodec) (hdr : PMXHeader) :
    Rd PMXMorphOffset :=
  rbind (readMaterialIndex hdr) fun mi =>
  rbind readByte fun ot =>
  rbind (readVector c 4) fun diff =>
  rbind (readVector c 3) fun spec =>
  rbind (readFloat c) fun specAlpha =>
  rbind (readVector c 3) fun amb =>
  rbind (readVector c 4) fun edgeCol =>
  rbind (readFloat c) fun edgeSize =>
  rbind (readVector c 4) fun texAlpha =>
  rbind (readVector c 4) fun sphAlpha =>
  rbind (readVector c 4) fun toonAlpha =>
  rpure (.material mi ot diff spec specAlpha amb edgeCol edgeSize texAlpha
    sphAlpha toonAlpha)

structure PMXMorph where
  name : Bytes
  nameEn : Bytes
  panel : ℤ
  typeIndex : ℤ
  offsets : List PMXMorphOffset
deriving DecidableEq

/-- `_load_morph`: the offset decoder is looked up by the type tag in a dict
with keys 0–8 (3–7 all map to the UV decoder); any other tag raises
`KeyError`. -/
def loadMorph (c : FloatCodec) (hdr : PMXHeader) : Rd PMXMorph :=
  rbind readStr fun nm =>
  rbind readStr fun ne =>
  rbind readByte fun panel =>
  rbind readByte fun ti =>
  if ti = 0 then
    rbind (loopLoadPMX 1 (loadGroupMorphOffset c hdr)) fun offs =>
    rpure ⟨nm, ne, panel, ti, offs⟩
  else if ti = 1 then
    rbind (loopLoadPMX 1 (loadVertexMorphOffset c hdr)) fun offs =>
    rpure ⟨nm, ne, panel, ti, offs⟩
  else if ti = 2 then
    rbind (loopLoadPMX 1 (loadBoneMorphOffset c hdr)) fun offs =>
    rpure ⟨nm, ne, panel, ti, offs⟩
  else if 3 ≤ ti ∧ ti ≤ 7 then
    rbind (loopLoadPMX 1 (loadUVMorphOffset c hdr)) fun offs =>
    rpure ⟨nm, ne, panel, ti, offs⟩
  else if ti = 8 then
    rbind (loopLoadPMX 1 (loadMaterialMorphOffset c hdr)) fun offs =>
    rpure ⟨nm, ne, panel, ti, offs⟩
  else rdThrow .keyError

structure PMXDisplayFrame where
  name : Bytes
  nameEn : Bytes
  isSpecial : Bool
  indices : List (ℕ × ℤ)
deriving DecidableEq

/-- One entry of `_load_display_frame`'s inner loop: a type byte selecting a
bone (0) or morph (1) index; anything else raises. -/
def loadDisplayIndex (hdr : PMXHeader) : Rd (ℕ × ℤ) :=
  rbind readUByte fun dt =>
  if dt = 0 then
    rbind (readBoneIndex hdr) fun idx => rpure (dt, idx)
  else if dt = 1 then
    rbind (readMorphIndex hdr) fun idx => rpure (dt, idx)
  else rdThrow .invalidValue

def loadDisplayFrame (hdr : PMXHeader) : Rd PMXDisplayFrame :=
  rbind readStr fun nm =>
  rbind readStr fun ne =>
  rbind readUByte fun sp =>
  rbind readInt fun numData =>
  rbind (rdReplicate (loadDisplayIndex hdr) numData.toNat) fun idxs =>
  rpure ⟨nm, ne, sp = 1, idxs⟩

structure PMXRigid where
  name : Bytes
  nameEn : Bytes
  boneIndex : Option ℤ
  collisionGroupNumber : ℤ
  collisionGroupMask : ℕ
  type : ℤ
  size : List ℚ
  location : List ℚ
  rotation : List ℚ
  mass : ℚ
  velocityAttenuation : ℚ
  rotationAttenuation : ℚ
  bounce : ℚ
  friction : ℚ
  mode : ℤ
deriving DecidableEq

/-- `_load_rigid` (`bone_index` keeps `None` for the −1 sentinel). -/
def loadRigid (c : FloatCodec) (hdr : PMXHeader) : Rd PMXRigid :=
  rbind readStr fun nm =>
  rbind readStr fun ne =>
  rbind (readBoneIndex hdr) fun bi =>
  rbind readByte fun cgn =>
  rbind readUShort fun cgm =>
  rbind readByte fun ty =>
  rbind (readVector c 3) fun size =>
  rbind (readVector c 3) fun loc =>
  rbind (readVector c 3) fun rot =>
  rbind (readFloat c) fun mass =>
  rbind (readFloat c) fun velAtt =>
  rbind (readFloat c) fun rotAtt =>
  rbind (readFloat c) fun bounce =>
  rbind (readFloat c) fun friction =>
  rbind readByte fun mode =>
  rpure ⟨nm, ne, if bi ≠ -1 then some bi else none, cgn, cgm, ty, size, loc,
    rot, mass, velAtt, rotAtt, bounce, friction, mode⟩

/-! ## Joint loading (`_load_joint`) with truncation recovery -/

/-- The reads of `_load_joint` up to and including the two rigid-body
references.  A failure anywhere here leaves at least one reference at its
`None` default, so the `except struct.error` recovery re-raises. -/
def loadJointHead (c : FloatCodec) (hdr : PMXHeader) :
    Rd (Bytes × Bytes × ℤ × ℤ × ℤ) :=
  rbind readStr fun nm =>
  rbind readStr fun ne =>
  rbind readByte fun md =>
  rbind (readRigidIndex hdr) fun src =>
  rbind (readRigidIndex hdr) fun dst =>
  rpure (nm, ne, md, src, dst)

/-- Read up to `n` consecutive 3-float vectors, stopping at the first
failure.  Returns the vectors read, the remaining stream (the failing
`fp.read(12)` consumes whatever was left), and the error, if any. -/
def readVec3Upto (c : FloatCodec) : ℕ → Bytes → List (List ℚ) × Bytes × Option RErr
  | 0, s => ([], s, none)
  | n + 1, s =>
    match readVector c 3 s with
    | .ok (v, s₂) =>
      let r := readVec3Upto c n s₂
      (v :: r.1, r.2.1, r.2.2)
    | .error e => ([], s.drop 12, some e)

structure PMXJoint where
  name : Bytes
  nameEn : Bytes
  mode : ℤ
  sourceRigidIndex : Option ℤ
  destinationRigidIndex : Option ℤ
  location : List ℚ
  rotation : List ℚ
  minimumLocation : List ℚ
  maximumLocation : List ℚ
  minimumRotation : List ℚ
  maximumRotation : List ℚ
  springLocationConstant : List ℚ
  springRotationConstant : List ℚ
deriving DecidableEq

/-- `_load_joint`: after the two rigid references are read, the −1 sentinel
is mapped to `None`; the eight vector fields follow.  A `struct.error`
during those reads is recovered — the fields already read keep their values
and the rest default to `(0, 0, 0)` — **unless** `source_rigid_index` or
`destination_rigid_index` `is None`, in which case it is re-raised.  Because
of the earlier −1 → `None` mapping, that test also re-raises whenever either
reference was the −1 sentinel. -/
def loadJoint (c : FloatCodec) (hdr : PMXHeader) : Rd PMXJoint := fun s =>
  match loadJointHead c hdr s with
  | .error e => .error e
  | .ok ((nm, ne, md, src, dst), s₂) =>
    let srcO : Option ℤ := if src = -1 then none else some src
    let dstO : Option ℤ := if dst = -1 then none else some dst
    let r := readVec3Upto c 8 s₂
    let joint : PMXJoint :=
      ⟨nm, ne, md, srcO, dstO,
       r.1.getD 0 [0, 0, 0], r.1.getD 1 [0, 0, 0], r.1.getD 2 [0, 0, 0],
       r.1.getD 3 [0, 0, 0], r.1.getD 4 [0, 0, 0], r.1.getD 5 [0, 0, 0],
       r.1.getD 6 [0, 0, 0], r.1.getD 7 [0, 0, 0]⟩
    match r.2.2 with
    | none => .ok (joint, r.2.1)
    | some e =>
      if e.isStruct then
        if srcO = none ∨ dstO = none then .error e
        else .ok (joint, r.2.1)
      else .error e

/-! ## Whole-model loading (`_load_model`, `load`) -/

structure PMXModel where
  name : Bytes
  nameEn : Bytes
  comment : Bytes
  commentEn : Bytes
  vertex : List PMXVertex
  face : List (ℤ × ℤ × ℤ)
  texture : List Bytes
  material : List PMXMaterial
  bone : List PMXBone
  morph : List PMXMorph
  display : List PMXDisplayFrame
  rigid : List PMXRigid
  joint : List PMXJoint
deriving DecidableEq

/-- The ten sections of `_load_model`, in order (faces consume the count
divided by 3; materials receive the decoded texture count). -/
def loadPMXModelSections (c : FloatCodec) (hdr : PMXHeader) : Rd PMXModel :=
  rbind readStr fun nm =>
  rbind readStr fun ne =>
  rbind readStr fun cmt =>
  rbind readStr fun cmtEn =>
  rbind (loopLoadPMX 1 (loadVertex c hdr)) fun vertices =>
  rbind (loopLoadPMX 3 (loadFace hdr)) fun faces =>
  rbind (loopLoadPMX 1 loadTexture) fun textures =>
  rbind (loopLoadPMX 1 (loadMaterial c hdr textures.length)) fun materials =>
  rbind (loopLoadPMX 1 (loadBone c hdr)) fun bones =>
  rbind (loopLoadPMX 1 (loadMorph c hdr)) fun morphs =>
  rbind (loopLoadPMX 1 (loadDisplayFrame hdr)) fun displays =>
  rbind (loopLoadPMX 1 (loadRigid c hdr)) fun rigids =>
  rbind (loopLoadPMX 1 (loadJoint c hdr)) fun joints =>
  rpure ⟨nm, ne, cmt, cmtEn, vertices, faces, textures, materials, bones,
    morphs, displays, rigids, joints⟩

/-- `_load_model`: all sections, then `read_rest() != b''` is fatal. -/
def loadPMXModel (c : FloatCodec) (hdr : PMXHeader) : Rd PMXModel := fun s =>
  match loadPMXModelSections c hdr s with
  | .error e => .error e
  | .ok (m, rest) => if rest = [] then .ok (m, []) else .error .trailingData

/-- `load`: header then model. -/
def loadPMX (c : FloatCodec) (s : Bytes) : Except RErr PMXModel :=
  match loadPMXHeader c s with
  | .error e => .error e
  | .ok (hdr, s₂) =>
    match loadPMXModel c hdr s₂ with
    | .error e => .error e
    | .ok (m, _) => .ok m

/-! ## C6 / C7 theorems about the PMX decoder -/

/-- A header declaring 1-byte widths for every index category. -/
def pmxHdr1 : PMXHeader := ⟨pmxSignature, 2, 0, 0, 1, 1, 1, 1, 1, 1⟩

/-- A joint record truncated right after the two rigid references, both of
which are the −1 sentinel (byte `0xFF` at 1-byte width): empty name and
english name, mode 0, source −1, destination −1, end of stream. -/
def jointSentinelStream : Bytes := [0, 0, 0, 0, 0, 0, 0, 0, 0, 255, 255]

/-- A joint record with both rigid references 0 that truncates inside its
second vector field (one full 12-byte vector, then 2 bytes). -/
def jointPartialStream : Bytes := [0, 0, 0, 0, 0, 0, 0, 0, 0, 0, 0, 0, 0, 0, 0, 0, 0, 0, 0, 0, 0, 0, 0, 0, 0]

/-- C6 counterexample: both rigid-body references are read successfully
(they are the −1 sentinel), the next read fails — yet `_load_joint`
propagates the error instead of returning a defaulted joint, because the
−1 → `None` mapping ran before the recovery check. -/
theorem loadJoint_sentinel_not_defaulted :
    loadJointHead (constCodec 0) pmxHdr1 jointSentinelStream =
      .ok (([], [], 0, -1, -1), []) ∧
    loadJoint (constCodec 0) pmxHdr1 jointSentinelStream =
      .error .bufferTooSmall := by
  have hh : loadJointHead (constCodec 0) pmxHdr1 jointSentinelStream =
      .ok (([], [], 0, -1, -1), []) := by
    norm_num [loadJointHead, readStr, readRigidIndex, readIndex, readInt,
      readIntN, readUIntN, readByte, readUnpack, rbind, rpure, leNat,
      toSigned, pmxHdr1, jointSentinelStream]
  refine ⟨hh, ?_⟩
  have hvec : readVec3Upto (constCodec 0) 8 [] =
      ([], [], some .bufferTooSmall) := by
    norm_num [readVec3Upto, readVector, readUnpack, rbind, rpure]
  simp [loadJoint, hh, hvec, RErr.isStruct]

/-- C6 (amended): when a `struct.error` interrupts the vector reads of a
joint record, the joint is returned with the already-read vectors kept and
the remaining ones defaulted to `(0,0,0)` **iff** both rigid-body references
were read successfully *and neither is the −1 "none" sentinel* (the sentinel
was already mapped to `None`, so the recovery check treats it as unread and
re-raises); a failure before both references are read propagates. -/
theorem loadJoint_truncation_recovery (c : FloatCodec) (hdr : PMXHeader) :
    (∀ s nm ne md src dst s₂ e,
      loadJointHead c hdr s = .ok ((nm, ne, md, src, dst), s₂) →
      (readVec3Upto c 8 s₂).2.2 = some e → e.isStruct = true →
      src ≠ -1 → dst ≠ -1 →
      loadJoint c hdr s = .ok
        (⟨nm, ne, md, some src, some dst,
          (readVec3Upto c 8 s₂).1.getD 0 [0, 0, 0],
          (readVec3Upto c 8 s₂).1.getD 1 [0, 0, 0],
          (readVec3Upto c 8 s₂).1.getD 2 [0, 0, 0],
          (readVec3Upto c 8 s₂).1.getD 3 [0, 0, 0],
          (readVec3Upto c 8 s₂).1.getD 4 [0, 0, 0],
          (readVec3Upto c 8 s₂).1.getD 5 [0, 0, 0],
          (readVec3Upto c 8 s₂).1.getD 6 [0, 0, 0],
          (readVec3Upto c 8 s₂).1.getD 7 [0, 0, 0]⟩,
         (readVec3Upto c 8 s₂).2.1)) ∧
    (∀ s nm ne md src dst s₂ e,
      loadJointHead c hdr s = .ok ((nm, ne, md, src, dst), s₂) →
      (readVec3Upto c 8 s₂).2.2 = some e → e.isStruct = true →
      (src = -1 ∨ dst = -1) →
      loadJoint c hdr s = .error e) ∧
    (∀ s e, loadJointHead c hdr s = .error e →
      loadJoint c hdr s = .error e) := by
  refine ⟨?_, ?_, ?_⟩
  · intro s nm ne md src dst s₂ e hh hvec hstr hs hd
    simp only [loadJoint, hh, hvec, hstr, if_true, if_neg hs, if_neg hd]
    simp
  · intro s nm ne md src dst s₂ e hh hvec hstr hsd
    simp only [loadJoint, hh, hvec, hstr, if_true]
    rcases hsd with hs | hd
    · simp [hs]
    · by_cases hs : src = -1
      · simp [hs]
      · simp [if_neg hs, hd]
  · intro s e hh
    simp only [loadJoint, hh]

/-- Witness for `loadJoint_truncation_recovery`, exercising all three
conjuncts: recovery with both references 0, re-raise with sentinel −1
references, and propagation of a failure in the head reads. -/
theorem loadJoint_truncation_recovery_witness :
    loadJoint (constCodec 0) pmxHdr1 jointPartialStream =
      .ok (⟨[], [], 0, some 0, some 0, [0, 0, 0], [0, 0, 0], [0, 0, 0],
        [0, 0, 0], [0, 0, 0], [0, 0, 0], [0, 0, 0], [0, 0, 0]⟩, []) ∧
    loadJoint (constCodec 0) pmxHdr1 jointSentinelStream =
      .error .bufferTooSmall ∧
    loadJoint (constCodec 0) pmxHdr1 [] = .error .bufferTooSmall := by
  obtain ⟨hrec, hsent, hprop⟩ := loadJoint_truncation_recovery (constCodec 0) pmxHdr1
  have hh1 : loadJointHead (constCodec 0) pmxHdr1 jointPartialStream =
      .ok (([], [], 0, 0, 0), [0, 0, 0, 0, 0, 0, 0, 0, 0, 0, 0, 0, 0, 0]) := by
    norm_num [loadJointHead, readStr, readRigidIndex, readIndex, readInt,
      readIntN, readUIntN, readByte, readUnpack, rbind, rpure, leNat,
      toSigned, pmxHdr1, jointPartialStream]
  have hv1 : readVec3Upto (constCodec 0) 8 [0, 0, 0, 0, 0, 0, 0, 0, 0, 0, 0, 0, 0, 0] =
      ([[0, 0, 0]], [], some .bufferTooSmall) := by
    norm_num [readVec3Upto, readVector, readUnpack, rbind, rpure, floatsOf,
      constCodec]
  have hh2 : loadJointHead (constCodec 0) pmxHdr1 jointSentinelStream =
      .ok (([], [], 0, -1, -1), []) := by
    norm_num [loadJointHead, readStr, readRigidIndex, readIndex, readInt,
      readIntN, readUIntN, readByte, readUnpack, rbind, rpure, leNat,
      toSigned, pmxHdr1, jointSentinelStream]
  have hv2 : readVec3Upto (constCodec 0) 8 [] =
      ([], [], some .bufferTooSmall) := by
    norm_num [readVec3Upto, readVector, readUnpack, rbind, rpure]
  have hh3 : loadJointHead (constCodec 0) pmxHdr1 [] =
      .error .bufferTooSmall := by
    norm_num [loadJointHead, readStr, readInt, readIntN, readUIntN,
      readUnpack, rbind, rpure]
  refine ⟨?_, ?_, hprop [] .bufferTooSmall hh3⟩
  · have := hrec jointPartialStream [] [] 0 0 0 [0, 0, 0, 0, 0, 0, 0, 0, 0, 0, 0, 0, 0, 0] .bufferTooSmall
      hh1 (by rw [hv1]) rfl (by norm_num) (by norm_num)
    rw [hv1] at this
    simpa using this
  · exact hsent jointSentinelStream [] [] 0 (-1) (-1) [] .bufferTooSmall
      hh2 (by rw [hv2]) rfl (Or.inl rfl)

/-- A model stream whose signature is `b'PMXA'` — the fourth byte differs
from `b'PMX '` — followed by a valid header (version bytes decode to 2.0
under the witness codec) and ten empty sections. -/
def pmxBadSigStream : Bytes := [80, 77, 88, 65, 0, 0, 0, 0, 8, 0, 0, 1, 1, 1, 1, 1, 1, 0, 0, 0, 0, 0, 0, 0, 0, 0, 0, 0, 0, 0, 0, 0, 0, 0, 0, 0, 0, 0, 0, 0, 0, 0, 0, 0, 0, 0, 0, 0, 0, 0, 0, 0, 0, 0, 0, 0, 0, 0, 0, 0, 0, 0, 0, 0, 0, 0, 0, 0, 0]

/-- A model stream with the exact `b'PMX '` signature, a valid header, ten
empty sections, and one extra trailing byte. -/
def pmxTrailingStream : Bytes := [80, 77, 88, 32, 0, 0, 0, 0, 8, 0, 0, 1, 1, 1, 1, 1, 1, 0, 0, 0, 0, 0, 0, 0, 0, 0, 0, 0, 0, 0, 0, 0, 0, 0, 0, 0, 0, 0, 0, 0, 0, 0, 0, 0, 0, 0, 0, 0, 0, 0, 0, 0, 0, 0, 0, 0, 0, 0, 0, 0, 0, 0, 0, 0, 0, 0, 0, 0, 0, 7]

/-- The model decoded from ten empty sections. -/
def pmxEmptyModel : PMXModel :=
  ⟨[], [], [], [], [], [], [], [], [], [], [], [], []⟩

/-- C7 counterexample: only the first three signature bytes are checked, so
a buffer whose 4-byte prefix is `b'PMXA'` (≠ `b'PMX '`) decodes without any
error (the fourth-byte mismatch merely warns). -/
theorem loadPMX_fourth_signature_byte_not_fatal :
    pmxBadSigStream.take 4 = [80, 77, 88, 65] ∧
    ([80, 77, 88, 65] : Bytes) ≠ pmxSignature ∧
    loadPMX (constCodec 2) pmxBadSigStream = .ok pmxEmptyModel := by
  refine ⟨by norm_num [pmxBadSigStream], by norm_num [pmxSignature], ?_⟩
  norm_num [loadPMX, loadPMXModel, loadPMXModelSections, loadPMXHeader,
    readRaw, readFloat, readStr, readInt, readIntN, readUIntN, readUByte,
    readByte, readUnpack, loopLoadPMX, rdReplicate, rbind, rpure, rdThrow,
    leNat, toSigned, constCodec, pmxSignature, pmxBadSigStream,
    pmxEmptyModel, Int.fdiv]

/-- C7 (amended): model decoding raises a fatal error when the first
*three* signature bytes differ from `b'PMX'` (the fourth byte is checked
loosely — a mismatch only warns), or when the version field is not exactly
2.0; and when all ten sections parse but unconsumed bytes remain, decoding
raises the fatal trailing-data error instead of returning a model. -/
theorem loadPMX_fatal_errors :
    (∀ (c : FloatCodec) (s sig s₁ : Bytes), readRaw 4 s = .ok (sig, s₁) →
      sig.take 3 ≠ pmxSignature.take 3 →
      loadPMX c s = .error .invalidFile) ∧
    (∀ (c : FloatCodec) (s sig s₁ : Bytes) (ver : ℚ) (s₂ : Bytes),
      readRaw 4 s = .ok (sig, s₁) → sig.take 3 = pmxSignature.take 3 →
      readFloat c s₁ = .ok (ver, s₂) → ver ≠ 2 →
      loadPMX c s = .error .unsupportedVersion) ∧
    (∀ (c : FloatCodec) (s : Bytes) (hdr : PMXHeader) (s₂ : Bytes)
      (m : PMXModel) (rest : Bytes),
      loadPMXHeader c s = .ok (hdr, s₂) →
      loadPMXModelSections c hdr s₂ = .ok (m, rest) → rest ≠ [] →
      loadPMX c s = .error .trailingData) := by
  refine ⟨?_, ?_, ?_⟩
  · intro c s sig s₁ hraw hsig
    simp only [loadPMX, loadPMXHeader, rbind, hraw, if_pos hsig, rdThrow]
  · intro c s sig s₁ ver s₂ hraw hsig hver hne
    simp only [loadPMX, loadPMXHeader, rbind, hraw,
      if_neg (by simp [hsig] : ¬ sig.take 3 ≠ pmxSignature.take 3),
      hver, if_pos hne, rdThrow]
  · intro c s hdr s₂ m rest hhdr hsec hrest
    simp only [loadPMX, hhdr, loadPMXModel, hsec, if_neg hrest]

/-- Witness for `loadPMX_fatal_errors`: a `b'XYZ '` signature, a `b'PMX '`
prefix whose version decodes to 0, and a complete empty model with one
trailing byte. -/
theorem loadPMX_fatal_errors_witness :
    loadPMX (constCodec 2) [88, 89, 90, 32] = .error .invalidFile ∧
    loadPMX (constCodec 0) [80, 77, 88, 32, 0, 0, 0, 0] =
      .error .unsupportedVersion ∧
    loadPMX (constCodec 2) pmxTrailingStream = .error .trailingData := by
  obtain ⟨hsig, hver, htrail⟩ := loadPMX_fatal_errors
  refine ⟨?_, ?_, ?_⟩
  · exact hsig (constCodec 2) [88, 89, 90, 32] [88, 89, 90, 32] []
      (by norm_num [readRaw]) (by norm_num [pmxSignature])
  · exact hver (constCodec 0) [80, 77, 88, 32, 0, 0, 0, 0] [80, 77, 88, 32]
      [0, 0, 0, 0] 0 []
      (by norm_num [readRaw]) (by norm_num [pmxSignature])
      (by norm_num [readFloat, readUnpack, rbind, rpure, constCodec])
      (by norm_num)
  · have hhdr : loadPMXHeader (constCodec 2) pmxTrailingStream =
        .ok (⟨[80, 77, 88, 32], 2, 0, 0, 1, 1, 1, 1, 1, 1⟩, [0, 0, 0, 0, 0, 0, 0, 0, 0, 0, 0, 0, 0, 0, 0, 0, 0, 0, 0, 0, 0, 0, 0, 0, 0, 0, 0, 0, 0, 0, 0, 0, 0, 0, 0, 0, 0, 0, 0, 0, 0, 0, 0, 0, 0, 0, 0, 0, 0, 0, 0, 0, 7]) := by
      norm_num [loadPMXHeader, readRaw, readFloat, readUByte, readByte,
        readIntN, readUIntN, readUnpack, rbind, rpure, leNat, toSigned,
        constCodec, pmxSignature, pmxTrailingStream]
    have hsec : loadPMXModelSections (constCodec 2)
        ⟨[80, 77, 88, 32], 2, 0, 0, 1, 1, 1, 1, 1, 1⟩ [0, 0, 0, 0, 0, 0, 0, 0, 0, 0, 0, 0, 0, 0, 0, 0, 0, 0, 0, 0, 0, 0, 0, 0, 0, 0, 0, 0, 0, 0, 0, 0, 0, 0, 0, 0, 0, 0, 0, 0, 0, 0, 0, 0, 0, 0, 0, 0, 0, 0, 0, 0, 7] =
        .ok (pmxEmptyModel, [7]) := by
      norm_num [loadPMXModelSections, readStr, readInt, readIntN, readUIntN,
        readUnpack, loopLoadPMX, rdReplicate, rbind, rpure, leNat, toSigned,
        pmxEmptyModel, Int.fdiv]
    exact htrail (constCodec 2) pmxTrailingStream _ [0, 0, 0, 0, 0, 0, 0, 0, 0, 0, 0, 0, 0, 0, 0, 0, 0, 0, 0, 0, 0, 0, 0, 0, 0, 0, 0, 0, 0, 0, 0, 0, 0, 0, 0, 0, 0, 0, 0, 0, 0, 0, 0, 0, 0, 0, 0, 0, 0, 0, 0, 0, 7] pmxEmptyModel
      [7] hhdr hsec (by norm_num)

end Mmdtools
